import Mathlib

/-!
Verification of the metrics aggregation engine of `src/app.py`.

This file is a shallow embedding of the computational core of the dashboard
application: quarter-record extraction, derived ratio computation, pivoting
(with pandas `DataFrame.pivot` semantics: lexicographically sorted row and
column labels, failure on duplicate (index, column) pairs), and summary
row / QTD column synthesis.

Numbers are modelled as rationals (`ℚ`): the Python code performs plain
arithmetic on JSON numbers and the properties under study are exact
algebraic identities.  Python `dict`s are modelled as association lists
with insertion-order/overwrite semantics (`dset` / `dget`), and every
`KeyError`-able access is modelled with `Option`.
-/

namespace Dashboard

/-! ## Python dict operations on association lists -/

/-- Lookup of a key in a dict (first entry wins; `dset` keeps keys unique). -/
def dget {α : Type} (m : List (String × α)) (k : String) : Option α :=
  (m.find? (fun p => p.1 == k)).map (·.2)

/-- Assignment `m[k] = v` with Python dict semantics: an existing key keeps
its position and is overwritten, a new key is appended at the end. -/
def dset {α : Type} : List (String × α) → String → α → List (String × α)
  | [], k, v => [(k, v)]
  | (k', v') :: m, k, v =>
    if k' = k then (k, v) :: m else (k', v') :: dset m k v

/-- Option-valued `map` over a list: the whole computation fails as soon as
one element fails (models a Python loop that may raise). -/
def omap {α β : Type} (f : α → Option β) : List α → Option (List β)
  | [] => some []
  | a :: l =>
    match f a with
    | none => none
    | some b =>
      match omap f l with
      | none => none
      | some bs => some (b :: bs)

theorem omap_eq_none_of_mem {α β : Type} (f : α → Option β) (l : List α)
    (a : α) (ha : a ∈ l) (hf : f a = none) : omap f l = none := by
  induction l with
  | nil => cases ha
  | cons x xs ih =>
    rcases List.mem_cons.mp ha with h | h
    · subst h; simp [omap, hf]
    · cases hx : f x with
      | none => simp [omap, hx]
      | some b => simp [omap, hx, ih h]

theorem dget_cons {α : Type} (p : String × α) (m : List (String × α)) (k : String) :
    dget (p :: m) k = if p.1 = k then some p.2 else dget m k := by
  unfold dget
  by_cases h : p.1 = k
  · rw [List.find?_cons_of_pos _ (by simpa using h), if_pos h]
    rfl
  · rw [List.find?_cons_of_neg _ (by simpa using h), if_neg h]

theorem dset_cons {α : Type} (k' : String) (v' : α) (m : List (String × α))
    (k : String) (v : α) :
    dset ((k', v') :: m) k v =
      if k' = k then (k, v) :: m else (k', v') :: dset m k v := rfl

theorem dget_dset_self {α : Type} (m : List (String × α)) (k : String) (v : α) :
    dget (dset m k v) k = some v := by
  induction m with
  | nil => simp [dget_cons, dset]
  | cons p m ih =>
    rw [show (p :: m : List (String × α)) = (p.1, p.2) :: m from rfl, dset_cons]
    by_cases h : p.1 = k
    · rw [if_pos h, dget_cons]
      simp
    · rw [if_neg h, dget_cons, if_neg h]
      exact ih

theorem dget_dset_ne {α : Type} (m : List (String × α)) (k k' : String) (v : α)
    (h : k' ≠ k) : dget (dset m k v) k' = dget m k' := by
  induction m with
  | nil => simp [dget, dset, h, Ne.symm h]
  | cons p m ih =>
    rw [show (p :: m : List (String × α)) = (p.1, p.2) :: m from rfl, dset_cons]
    by_cases hp : p.1 = k
    · rw [if_pos hp, dget_cons, dget_cons]
      subst hp
      rw [if_neg (fun hh => h hh.symm), if_neg (fun hh => h hh.symm)]
    · rw [if_neg hp, dget_cons, dget_cons]
      by_cases hk' : p.1 = k'
      · rw [if_pos hk', if_pos hk']
      · rw [if_neg hk', if_neg hk']
        exact ih

/-! ## Sorted deduplication (pandas pivot label ordering)

pandas `DataFrame.pivot` is `set_index` + `unstack`; the resulting row and
column labels are the distinct values sorted in ascending (lexicographic)
order.  `strLt` is the Python string comparison (code-point lexicographic);
`insertS` inserts a label into an already sorted duplicate-free list,
`sortedDedup` folds it over the input. -/

def strLtb : List Char → List Char → Bool
  | [], [] => false
  | [], _ :: _ => true
  | _ :: _, [] => false
  | c :: cs, d :: ds =>
    if c.toNat < d.toNat then true
    else if d.toNat < c.toNat then false
    else strLtb cs ds

/-- Python string `<`: code-point lexicographic comparison. -/
def strLt (s t : String) : Bool := strLtb s.data t.data

theorem char_toNat_inj {c d : Char} (h : c.toNat = d.toNat) : c = d := by
  have h2 : c.val = d.val := by
    unfold Char.toNat at h
    exact UInt32.ext h
  exact Char.eq_of_val_eq h2

theorem strLtb_trans : ∀ {a b c : List Char},
    strLtb a b = true → strLtb b c = true → strLtb a c = true
  | [], [], _, h1, _ => by cases h1
  | [], _ :: _, [], _, h2 => by cases h2
  | [], _ :: _, _ :: _, _, _ => rfl
  | _ :: _, [], _, h1, _ => by cases h1
  | _ :: _, _ :: _, [], _, h2 => by cases h2
  | x :: xs, y :: ys, z :: zs, h1, h2 => by
    simp only [strLtb] at *
    by_cases hxy : x.toNat < y.toNat
    · by_cases hyz : y.toNat < z.toNat
      · rw [if_pos (by omega)]
      · rw [if_pos hxy] at h1
        rw [if_neg hyz] at h2
        by_cases hzy : z.toNat < y.toNat
        · rw [if_pos hzy] at h2; cases h2
        · have : y.toNat = z.toNat := by omega
          rw [if_pos (by omega)]
    · rw [if_neg hxy] at h1
      by_cases hyx : y.toNat < x.toNat
      · rw [if_pos hyx] at h1; cases h1
      · rw [if_neg hyx] at h1
        have hxy' : x.toNat = y.toNat := by omega
        by_cases hyz : y.toNat < z.toNat
        · rw [if_pos (by omega)]
        · rw [if_neg hyz] at h2
          by_cases hzy : z.toNat < y.toNat
          · rw [if_pos hzy] at h2; cases h2
          · rw [if_neg hzy] at h2
            rw [if_neg (by omega), if_neg (by omega)]
            exact strLtb_trans h1 h2

theorem strLtb_irrefl : ∀ (a : List Char), strLtb a a = false
  | [] => rfl
  | _ :: xs => by
    simp only [strLtb]
    rw [if_neg (lt_irrefl _), if_neg (lt_irrefl _)]
    exact strLtb_irrefl xs

theorem strLtb_eq_of_not_lt : ∀ {a b : List Char},
    strLtb a b = false → strLtb b a = false → a = b
  | [], [], _, _ => rfl
  | [], _ :: _, h1, _ => by cases h1
  | _ :: _, [], _, h2 => by cases h2
  | x :: xs, y :: ys, h1, h2 => by
    simp only [strLtb] at h1 h2
    by_cases hxy : x.toNat < y.toNat
    · rw [if_pos hxy] at h1; cases h1
    · by_cases hyx : y.toNat < x.toNat
      · rw [if_pos hyx] at h2; cases h2
      · rw [if_neg hxy, if_neg hyx] at h1
        rw [if_neg hyx, if_neg hxy] at h2
        have hx : x = y := char_toNat_inj (by omega)
        rw [hx, strLtb_eq_of_not_lt h1 h2]

theorem strLt_trans {a b c : String} (h1 : strLt a b = true)
    (h2 : strLt b c = true) : strLt a c = true := strLtb_trans h1 h2

theorem strLt_irrefl (a : String) : strLt a a = false := strLtb_irrefl a.data

theorem strLt_asymm {a b : String} (h : strLt a b = true) : strLt b a = false := by
  by_contra hc
  have hba : strLt b a = true := by
    cases hv : strLt b a
    · exact absurd hv hc
    · rfl
  have := strLt_trans h hba
  rw [strLt_irrefl a] at this
  cases this

theorem strLt_total {a b : String} (hne : a ≠ b) (h : strLt a b = false) :
    strLt b a = true := by
  cases hv : strLt b a
  · exact absurd (String.ext (strLtb_eq_of_not_lt h hv)) hne
  · rfl

instance : IsIrrefl String (fun a b : String => strLt a b = true) :=
  ⟨fun a h => by rw [strLt_irrefl a] at h; cases h⟩

instance : IsAntisymm String (fun a b : String => strLt a b = true) :=
  ⟨fun a b h1 h2 => by rw [strLt_asymm h2] at h1; cases h1⟩

def insertS (x : String) : List String → List String
  | [] => [x]
  | y :: ys =>
    if x = y then y :: ys
    else if strLt x y then x :: y :: ys
    else y :: insertS x ys

def sortedDedup (l : List String) : List String := l.foldr insertS []

theorem insertS_cons (x y : String) (ys : List String) :
    insertS x (y :: ys) =
      if x = y then y :: ys
      else if strLt x y then x :: y :: ys
      else y :: insertS x ys := rfl

theorem mem_insertS (a x : String) (l : List String) :
    a ∈ insertS x l ↔ a = x ∨ a ∈ l := by
  induction l with
  | nil => simp [insertS]
  | cons y ys ih =>
    rw [insertS_cons]
    split_ifs with h1 h2
    · subst h1
      simp only [List.mem_cons]
      tauto
    · simp only [List.mem_cons]
    · simp only [List.mem_cons, ih]
      tauto

theorem sorted_insertS (x : String) (l : List String)
    (h : l.Sorted (fun a b => strLt a b = true)) :
    (insertS x l).Sorted (fun a b => strLt a b = true) := by
  induction l with
  | nil => simp [insertS]
  | cons y ys ih =>
    have hy : ∀ b ∈ ys, strLt y b = true := (List.sorted_cons.mp h).1
    have hys : ys.Sorted (fun a b => strLt a b = true) := (List.sorted_cons.mp h).2
    rw [insertS_cons]
    split_ifs with h1 h2
    · exact h
    · refine List.sorted_cons.mpr ⟨?_, h⟩
      intro b hb
      rcases List.mem_cons.mp hb with hb | hb
      · exact hb ▸ h2
      · exact strLt_trans h2 (hy b hb)
    · have h2' : strLt x y = false := by
        cases hv : strLt x y
        · rfl
        · exact absurd hv h2
      have hyx : strLt y x = true := strLt_total (fun hh => h1 hh) h2'
      refine List.sorted_cons.mpr ⟨?_, ih hys⟩
      intro b hb
      rcases (mem_insertS b x ys).mp hb with hb | hb
      · exact hb ▸ hyx
      · exact hy b hb

theorem sorted_sortedDedup (l : List String) :
    (sortedDedup l).Sorted (fun a b => strLt a b = true) := by
  induction l with
  | nil => simp [sortedDedup]
  | cons x xs ih => exact sorted_insertS x _ ih

theorem mem_sortedDedup (a : String) (l : List String) :
    a ∈ sortedDedup l ↔ a ∈ l := by
  induction l with
  | nil => simp [sortedDedup]
  | cons x xs ih =>
    simp only [sortedDedup, List.foldr] at *
    rw [mem_insertS, ih, List.mem_cons]

theorem nodup_sortedDedup (l : List String) : (sortedDedup l).Nodup :=
  (sorted_sortedDedup l).nodup

/-- Two lists with the same members have the same sorted deduplication. -/
theorem sortedDedup_congr (l l' : List String)
    (h : ∀ a, a ∈ l ↔ a ∈ l') : sortedDedup l = sortedDedup l' := by
  apply List.eq_of_perm_of_sorted ?_ (sorted_sortedDedup l) (sorted_sortedDedup l')
  apply (List.perm_ext_iff_of_nodup (nodup_sortedDedup l) (nodup_sortedDedup l')).mpr
  intro a
  rw [mem_sortedDedup, mem_sortedDedup]
  exact h a

/-! ## Data model: snapshots and metric blocks (spec §3 / JSON schema §6) -/

/-- One named measurement of a quarter snapshot.  Every scalar field and
every sub-map is optional: a missing JSON key is `none` and a direct Python
subscript on it raises `KeyError` (modelled as `Option` failure). -/
structure MetricBlock where
  total : Option ℚ := none
  overall : Option ℚ := none
  filled : Option ℚ := none
  open_ : Option ℚ := none
  by_business : Option (List (String × ℚ)) := none
  filled_by_business : Option (List (String × ℚ)) := none
  open_by_business : Option (List (String × ℚ)) := none
deriving DecidableEq

/-- One fiscal-period snapshot. -/
structure Snapshot where
  fiscal_year : String
  quarter : String
  metrics : List (String × MetricBlock)
deriving DecidableEq

/-- Python: the f-string joining `fiscal_year` and `quarter` with a space. -/
def quarterLabel (s : Snapshot) : String :=
  s.fiscal_year ++ " " ++ s.quarter

/-- Python: `quarter_data [metrics] [key] [total]` (direct subscripts). -/
def metricTotal (s : Snapshot) (key : String) : Option ℚ :=
  (dget s.metrics key).bind (·.total)

/-- The fixed six-unit business catalog hard-coded in every extraction
function of `app.py`. -/
def businesses : List String :=
  ["BET NA", "HIL", "GROWTH MARKETS", "PLATINUM AC-CITI", "PLATINUM AC-JPMC", "TIME"]

inductive MetricType | hc | fte
deriving DecidableEq

/-! ## Derived ratio computation (spec §4.2, C3)

Each definition is the guarded expression at the cited source line. -/

/-- Python: `(kpo / total * 100) if total > 0 else 0` (lines 272, 517). -/
def kpo_pct (kpo total : ℚ) : ℚ := if total > 0 then kpo / total * 100 else 0

/-- Python: `(non_kpo / total * 100) if total > 0 else 0` (line 518). -/
def non_kpo_pct (non_kpo total : ℚ) : ℚ :=
  if total > 0 then non_kpo / total * 100 else 0

/-- Python: `(onsite / total * 100) if total > 0 else 0` (line 519). -/
def onsite_pct (onsite total : ℚ) : ℚ :=
  if total > 0 then onsite / total * 100 else 0

/-- Python: `(offshore / total * 100) if total > 0 else 0` (lines 520, 922). -/
def offshore_pct (offshore total : ℚ) : ℚ :=
  if total > 0 then offshore / total * 100 else 0

/-- Python: `(onsite_kpo / onsite * 100) if onsite > 0 else 0` (line 561). -/
def onsite_kpo_pct (onsite_kpo onsite : ℚ) : ℚ :=
  if onsite > 0 then onsite_kpo / onsite * 100 else 0

/-- Python: `(offshore_kpo / offshore * 100) if offshore > 0 else 0` (line 590). -/
def offshore_kpo_pct (offshore_kpo offshore : ℚ) : ℚ :=
  if offshore > 0 then offshore_kpo / offshore * 100 else 0

/-- Python: `actionable = filled + open` then
`(filled / actionable * 100) if actionable > 0 else 0` (lines 757-758, 1427-1428). -/
def fulfillment_rate_of (filled opened : ℚ) : ℚ :=
  if filled + opened > 0 then filled / (filled + opened) * 100 else 0

/-- Python: `((last - first) / first * 100) if first > 0 else 0` (lines 639-643). -/
def growth_pct (first last : ℚ) : ℚ :=
  if first > 0 then (last - first) / first * 100 else 0

/-- Python `int(q)`: truncation toward zero (line 750-751). -/
def pytrunc (q : ℚ) : ℤ := if 0 ≤ q then ⌊q⌋ else ⌈q⌉

/-! ## Quarter record extraction (spec §4.1) -/

/-- A row of the HC/FTE business breakdown dataframes. -/
structure BRec where
  Quarter : String
  Business : String
  Total : ℚ
deriving DecidableEq

/-- Key `total_billable_hc` or `total_billable_fte` (lines 117-119). -/
def totalBillableKey : MetricType → String
  | .hc => "total_billable_hc"
  | .fte => "total_billable_fte"

/-- Key `total_onsite_hc` etc (lines 140-149): the Python code
distinguishes the location string `onsite` from everything else. -/
def locationKey (mt : MetricType) (location : String) : String :=
  match mt with
  | .hc => if location = "onsite" then "total_onsite_hc" else "total_offshore_hc"
  | .fte => if location = "onsite" then "total_onsite_fte" else "total_offshore_fte"

/-- One record of `create_business_dataframe` (lines 121-126):
`metrics [total_key] [by_business] [business]`; any missing key raises. -/
def businessRecord (qd : Snapshot) (key : String) (b : String) : Option BRec :=
  match dget qd.metrics key with
  | none => none
  | some blk =>
    match blk.by_business with
    | none => none
    | some m =>
      match dget m b with
      | none => none
      | some v => some { Quarter := quarterLabel qd, Business := b, Total := v }

/-- Embeds `create_business_dataframe` (lines 107-128). -/
def create_business_dataframe (data : List Snapshot) (mt : MetricType) :
    Option (List BRec) :=
  (omap (fun qd => omap (businessRecord qd (totalBillableKey mt)) businesses) data).map
    List.flatten

/-- Embeds `create_location_business_dataframe` (lines 131-158). -/
def create_location_business_dataframe (data : List Snapshot) (mt : MetricType)
    (location : String) : Option (List BRec) :=
  (omap (fun qd => omap (businessRecord qd (locationKey mt location)) businesses) data).map
    List.flatten

/-- A row of the fulfillment business breakdown dataframes. -/
structure FRec where
  Quarter : String
  Business : String
  Total : ℚ
  Filled : ℚ
  Open : ℚ
  Fulfillment_Rate : ℚ
deriving DecidableEq

/-- Reads `metrics [key] [by_business] [b]` (direct subscripts, may raise). -/
def byBusinessVal (qd : Snapshot) (key : String) (b : String) : Option ℚ :=
  match dget qd.metrics key with
  | none => none
  | some blk =>
    match blk.by_business with
    | none => none
    | some m => dget m b

/-- One record of `create_fulfillment_business_dataframe` (lines 715-723). -/
def fulfillBusinessRecord (qd : Snapshot) (b : String) : Option FRec :=
  match byBusinessVal qd "total_demands" b, byBusinessVal qd "filled_demands" b,
        byBusinessVal qd "open_demands" b, byBusinessVal qd "fulfillment_rate" b with
  | some t, some f, some o, some r =>
    some { Quarter := quarterLabel qd, Business := b, Total := t, Filled := f,
           Open := o, Fulfillment_Rate := r }
  | _, _, _, _ => none

/-- Embeds `create_fulfillment_business_dataframe` (lines 706-725). -/
def create_fulfillment_business_dataframe (data : List Snapshot) :
    Option (List FRec) :=
  (omap (fun qd => omap (fulfillBusinessRecord qd) businesses) data).map List.flatten

/-- Python: key `onsite_demands` when the location is onsite, else `offshore_demands` (line 737). -/
def demandLocationKey (location : String) : String :=
  if location = "onsite" then "onsite_demands" else "offshore_demands"

/-- One record of `create_fulfillment_location_business_dataframe`
(lines 739-767).  Location-level filled/open are a proportional split of
the overall per-business filled/open counts, truncated toward zero; the
`filled_by_business` / `open_by_business` sub-maps are never consulted. -/
def fulfillLocationRecord (qd : Snapshot) (locKey : String) (b : String) :
    Option FRec :=
  match byBusinessVal qd locKey b, byBusinessVal qd "total_demands" b,
        byBusinessVal qd "filled_demands" b, byBusinessVal qd "open_demands" b with
  | some total_demands, some business_total, some business_filled, some business_open =>
    let location_filled : ℚ :=
      if business_total > 0 then
        (pytrunc (business_filled * (total_demands / business_total)) : ℚ)
      else 0
    let location_open : ℚ :=
      if business_total > 0 then
        (pytrunc (business_open * (total_demands / business_total)) : ℚ)
      else 0
    some { Quarter := quarterLabel qd, Business := b, Total := total_demands,
           Filled := location_filled, Open := location_open,
           Fulfillment_Rate := fulfillment_rate_of location_filled location_open }
  | _, _, _, _ => none

/-- Embeds `create_fulfillment_location_business_dataframe` (lines 728-769). -/
def create_fulfillment_location_business_dataframe (data : List Snapshot)
    (location : String) : Option (List FRec) :=
  (omap (fun qd => omap (fulfillLocationRecord qd (demandLocationKey location)) businesses)
    data).map List.flatten

/-! ## Growth metrics (`display_growth_metrics`, lines 606-643, C10) -/

/-- The five growth percentages computed by `display_growth_metrics`. -/
structure Growth where
  total_growth : ℚ
  kpo_growth : ℚ
  non_kpo_growth : ℚ
  onsite_growth : ℚ
  offshore_growth : ℚ
deriving DecidableEq

def totalKpoKey : MetricType → String
  | .hc => "total_kpo_hc"
  | .fte => "total_kpo_fte"

def totalNonKpoKey : MetricType → String
  | .hc => "total_non_kpo_hc"
  | .fte => "total_non_kpo_fte"

def totalOnsiteKey : MetricType → String
  | .hc => "total_onsite_hc"
  | .fte => "total_onsite_fte"

def totalOffshoreKey : MetricType → String
  | .hc => "total_offshore_hc"
  | .fte => "total_offshore_fte"

/-- Embeds `display_growth_metrics`: returns `none` when fewer than two
snapshots (`if len(data) < 2: return`) or when a required metric key is
absent; otherwise the five pairwise first-vs-last growth percentages. -/
def display_growth_metrics (data : List Snapshot) (mt : MetricType) :
    Option Growth :=
  if data.length < 2 then none
  else
    match data.head?, data.getLast? with
    | some first, some last =>
      match metricTotal first (totalBillableKey mt), metricTotal last (totalBillableKey mt),
            metricTotal first (totalKpoKey mt), metricTotal last (totalKpoKey mt),
            metricTotal first (totalNonKpoKey mt), metricTotal last (totalNonKpoKey mt) with
      | some ft, some lt, some fk, some lk, some fn, some ln =>
        match metricTotal first (totalOnsiteKey mt), metricTotal last (totalOnsiteKey mt),
              metricTotal first (totalOffshoreKey mt), metricTotal last (totalOffshoreKey mt) with
        | some fo, some lo, some ff, some lf =>
          some { total_growth := growth_pct ft lt, kpo_growth := growth_pct fk lk,
                 non_kpo_growth := growth_pct fn ln, onsite_growth := growth_pct fo lo,
                 offshore_growth := growth_pct ff lf }
        | _, _, _, _ => none
      | _, _, _, _, _, _ => none
    | _, _ => none

/-! ## Pivoting (spec §4.3)

pandas `df.pivot` with Business as index and Quarter as columns:
raises `ValueError` on a duplicate (Business, Quarter) pair, otherwise
produces a grid whose row labels are the distinct businesses sorted
ascending and whose column labels are the distinct quarters sorted
ascending (`set_index` + `unstack`, categorical levels are sorted). -/

def recKey (r : BRec) : String × String := (r.Business, r.Quarter)

def pivotRowLabels (recs : List BRec) : List String :=
  sortedDedup (recs.map (·.Business))

def pivotColLabels (recs : List BRec) : List String :=
  sortedDedup (recs.map (·.Quarter))

/-- The pivot cell for (business, quarter): the value of the unique
matching record, `none` (NaN) when no record matches. -/
def cellOf (recs : List BRec) (b q : String) : Option ℚ :=
  (recs.find? (fun r => r.Business == b && r.Quarter == q)).map (·.Total)

/-- Pivot cell read as a number.  The extraction paths of the dashboard emit one
record per (business, quarter) cross pair, so under that completeness
invariant the default is never used. -/
def cellD (recs : List BRec) (b q : String) : ℚ := (cellOf recs b q).getD 0

/-- Every pivot cell is populated: the completeness invariant maintained
by all extraction paths of the app. -/
def Complete (recs : List BRec) : Prop :=
  ∀ b ∈ pivotRowLabels recs, ∀ q ∈ pivotColLabels recs, (cellOf recs b q).isSome

/-- The pair of second-to-last and last element of a list, when it has at least two. -/
def last2 {α : Type} (l : List α) : Option (α × α) :=
  match l.reverse with
  | a :: b :: _ => some (b, a)
  | _ => none

/-- QTD value of one business row (lines 1134-1148): last quarter column
minus second-to-last when there are at least two quarter columns, else 0. -/
def qtdOf (recs : List BRec) (b : String) : ℚ :=
  match last2 (pivotColLabels recs) with
  | some (s, t) => cellD recs b t - cellD recs b s
  | none => 0

/-- The VRTU summary cell at a column (lines 1151-1157): for `QTD` the
sum of the per-row QTD values (0 when fewer than two quarters), otherwise
the column sum over all business rows. -/
def vrtuAt (recs : List BRec) (c : String) : ℚ :=
  if c = "QTD" then
    match last2 (pivotColLabels recs) with
    | some _ => ((pivotRowLabels recs).map (qtdOf recs)).sum
    | none => 0
  else ((pivotRowLabels recs).map (fun b => cellD recs b c)).sum

/-- The bare result of `df.pivot` on Business rows,
Quarter columns and Total values (line 1132): sorted distinct row and column labels and
the cell contents; `none` models the `ValueError` pandas raises when two
records share a (Business, Quarter) pair. -/
structure PivotTable where
  rows : List String
  cols : List String
  cell : String → String → Option ℚ

def pandasPivot (recs : List BRec) : Option PivotTable :=
  if (recs.map recKey).Nodup then
    some { rows := pivotRowLabels recs, cols := pivotColLabels recs,
           cell := cellOf recs }
  else none

/-! ## Summary row synthesis for HC/FTE tables
(`create_enhanced_pivot_table`, lines 1128-1221) -/

/-- The `table_title` argument at the three call sites (lines 1250, 1269, 1288). -/
inductive TableTitle | Overall | Onsite | Offshore
deriving DecidableEq

/-- The KPO-scoped metric key selected per table (lines 1163-1206). -/
def enhancedKpoKey (mt : MetricType) : TableTitle → String
  | .Overall => totalKpoKey mt
  | .Onsite => match mt with | .hc => "onsite_kpo_hc" | .fte => "onsite_kpo_fte"
  | .Offshore => match mt with | .hc => "offshore_kpo_hc" | .fte => "offshore_kpo_fte"

/-- The `kpo_row` dict for HC/FTE tables: one entry per snapshot (a
repeated quarter label overwrites), plus the `QTD` entry computed from
`kpo_values_list` (last minus second-to-last when at least two snapshots,
else 0).  Fails (`KeyError`) when the KPO metric block or its `total` field
is absent from some snapshot. -/
def enhancedKpoRow (data : List Snapshot) (mt : MetricType) (title : TableTitle) :
    Option (List (String × ℚ)) :=
  match omap (fun qd =>
      (metricTotal qd (enhancedKpoKey mt title)).map (fun v => (quarterLabel qd, v))) data with
  | none => none
  | some kvs =>
    let dict := kvs.foldl (fun m kv => dset m kv.1 kv.2) []
    let qtd : ℚ :=
      match (kvs.map (·.2)).reverse with
      | a :: b :: _ => a - b
      | _ => 0
    some (dset dict "QTD" qtd)

/-- The `vrtu_excl_kpo_row` dict for HC/FTE tables (lines 1208-1214):
iterates the pivot columns; at `QTD` it subscripts `kpo_row [QTD]`
directly (failure when absent), at a quarter it subtracts only when the
quarter has a KPO entry, and otherwise writes no cell at all. -/
def enhancedExclRow (vrtu : String → ℚ) (kpo : List (String × ℚ)) :
    List String → Option (List (String × ℚ))
  | [] => some []
  | c :: cs =>
    if c = "QTD" then
      match dget kpo c with
      | none => none
      | some k => (enhancedExclRow vrtu kpo cs).map (fun m => (c, vrtu c - k) :: m)
    else
      match dget kpo c with
      | some k => (enhancedExclRow vrtu kpo cs).map (fun m => (c, vrtu c - k) :: m)
      | none => enhancedExclRow vrtu kpo cs

/-- An enriched HC/FTE pivot grid: business rows, quarter columns plus
`QTD`, the three summary rows appended last in fixed order. -/
structure EnhancedGrid where
  qcols : List String
  cols : List String
  bizRows : List String
  rowLabels : List String
  cell : String → String → ℚ
  vrtuRow : String → ℚ
  kpoRow : List (String × ℚ)
  exclRow : List (String × ℚ)

/-- Embeds `create_enhanced_pivot_table` (lines 1128-1221): pivot (duplicate
(Business, Quarter) pairs raise), append the QTD column, then synthesize
the VRTU, KPO and VRTU Excl KPO rows. -/
def create_enhanced_pivot_table (recs : List BRec) (data : List Snapshot)
    (mt : MetricType) (title : TableTitle) : Option EnhancedGrid :=
  if (recs.map recKey).Nodup then
    match enhancedKpoRow data mt title with
    | none => none
    | some kpo =>
      match enhancedExclRow (vrtuAt recs) kpo (pivotColLabels recs ++ ["QTD"]) with
      | none => none
      | some excl =>
        some { qcols := pivotColLabels recs, cols := pivotColLabels recs ++ ["QTD"],
               bizRows := pivotRowLabels recs,
               rowLabels := pivotRowLabels recs ++ ["VRTU", "KPO", "VRTU Excl KPO"],
               cell := fun b c => if c = "QTD" then qtdOf recs b else cellD recs b c,
               vrtuRow := vrtuAt recs,
               kpoRow := kpo, exclRow := excl }
  else none

/-! ## Summary row synthesis for fulfillment tables
(`create_fulfillment_pivot`, lines 1391-1467) -/

/-- The `metric_col` argument at the call sites (lines 1493-1656). -/
inductive FulfillCol | Total | Filled | Opened | Fulfillment_Rate
deriving DecidableEq

/-- Projection of a fulfillment record onto the pivoted value column. -/
def frecVal (r : FRec) : FulfillCol → ℚ
  | .Total => r.Total
  | .Filled => r.Filled
  | .Opened => r.Open
  | .Fulfillment_Rate => r.Fulfillment_Rate

def frecKey (r : FRec) : String × String := (r.Business, r.Quarter)

def fpivotRowLabels (df : List FRec) : List String :=
  sortedDedup (df.map (·.Business))

def fpivotColLabels (df : List FRec) : List String :=
  sortedDedup (df.map (·.Quarter))

def fcellOf (df : List FRec) (col : FulfillCol) (b q : String) : Option ℚ :=
  (df.find? (fun r => r.Business == b && r.Quarter == q)).map (frecVal · col)

def fcellD (df : List FRec) (col : FulfillCol) (b q : String) : ℚ :=
  (fcellOf df col b q).getD 0

def FComplete (df : List FRec) : Prop :=
  ∀ b ∈ fpivotRowLabels df, ∀ q ∈ fpivotColLabels df,
    ∀ col, (fcellOf df col b q).isSome

/-- Embeds the pivot call of the fulfillment tables, pivoting on the
selected metric column (line 1392). -/
def pandasPivotF (df : List FRec) (col : FulfillCol) : Option PivotTable :=
  if (df.map frecKey).Nodup then
    some { rows := fpivotRowLabels df, cols := fpivotColLabels df,
           cell := fcellOf df col }
  else none

/-- Python: `pivot [QTD] = pivot.iloc[:, -1] - pivot.iloc[:, -2]` when at
least two quarter columns exist, else the scalar 0 (lines 1394-1398). -/
def fqtdOf (df : List FRec) (col : FulfillCol) (b : String) : ℚ :=
  match last2 (fpivotColLabels df) with
  | some (s, t) => fcellD df col b t - fcellD df col b s
  | none => 0

/-- The fulfillment VRTU cell (lines 1401-1407): per-column sum over all
business rows; at `QTD` the sum of the QTD column. -/
def fvrtuAt (df : List FRec) (col : FulfillCol) (c : String) : ℚ :=
  if c = "QTD" then ((fpivotRowLabels df).map (fqtdOf df col)).sum
  else ((fpivotRowLabels df).map (fun b => fcellD df col b c)).sum

/-- The KPO value for one snapshot (lines 1414-1442): the `kpo_demands`
block when present (direct subscripts on its fields may raise), otherwise
the TIME business column of the matching overall block with default 0
(a `.get` with default 0). -/
def fulfillKpoVal (qd : Snapshot) (col : FulfillCol) : Option ℚ :=
  match dget qd.metrics "kpo_demands" with
  | some blk =>
    match col with
    | .Total => blk.total
    | .Filled => blk.filled
    | .Opened => blk.open_
    | .Fulfillment_Rate =>
      match blk.filled, blk.open_ with
      | some f, some o => some (fulfillment_rate_of f o)
      | _, _ => none
  | none =>
    let fallbackKey : String :=
      match col with
      | .Total => "total_demands"
      | .Filled => "filled_demands"
      | .Opened => "open_demands"
      | .Fulfillment_Rate => "fulfillment_rate"
    match dget qd.metrics fallbackKey with
    | none => none
    | some blk =>
      match blk.by_business with
      | none => none
      | some m => some ((dget m "TIME").getD 0)

/-- Builds the per-quarter part of the fulfillment `kpo_row` dict by
iterating the snapshot sequence, skipping snapshots whose label is not a
pivot column (lines 1411-1443). -/
def fulfillKpoQuartersAux (cols : List String) (col : FulfillCol) :
    List Snapshot → List (String × ℚ) → Option (List (String × ℚ))
  | [], acc => some acc
  | qd :: rest, acc =>
    if quarterLabel qd ∈ cols then
      match fulfillKpoVal qd col with
      | none => none
      | some v => fulfillKpoQuartersAux cols col rest (dset acc (quarterLabel qd) v)
    else fulfillKpoQuartersAux cols col rest acc

/-- The fulfillment `kpo_row` dict including its `QTD` entry
(lines 1409-1452): QTD is last minus second-to-last of the quarter
columns, read with `.get(_, 0)`. -/
def fulfillKpoRow (dataSource : List Snapshot) (cols : List String)
    (col : FulfillCol) : Option (List (String × ℚ)) :=
  match fulfillKpoQuartersAux cols col dataSource [] with
  | none => none
  | some dict =>
    let kq := cols.filter (fun q => q ≠ "QTD")
    let qtd : ℚ :=
      match last2 kq with
      | some (s, t) => (dget dict t).getD 0 - (dget dict s).getD 0
      | none => 0
    some (dset dict "QTD" qtd)

/-- The fulfillment `vrtu_excl_kpo_row` (lines 1454-1460): per column,
VRTU minus KPO when the column has a KPO entry, else VRTU unchanged.
Total: it cannot fail. -/
def fulfillExclRow (cols : List String) (vrtu : String → ℚ)
    (kpo : List (String × ℚ)) : List (String × ℚ) :=
  cols.map (fun c =>
    (c, match dget kpo c with
        | some k => vrtu c - k
        | none => vrtu c))

/-- An enriched fulfillment pivot grid. -/
structure FulfillGrid where
  qcols : List String
  cols : List String
  bizRows : List String
  rowLabels : List String
  cell : String → String → ℚ
  vrtuRow : String → ℚ
  kpoRow : List (String × ℚ)
  exclRow : List (String × ℚ)

/-- Embeds `create_fulfillment_pivot` (lines 1391-1467). -/
def create_fulfillment_pivot (df : List FRec) (col : FulfillCol)
    (dataSource : List Snapshot) : Option FulfillGrid :=
  if (df.map frecKey).Nodup then
    match fulfillKpoRow dataSource (fpivotColLabels df ++ ["QTD"]) col with
    | none => none
    | some kpo =>
      some { qcols := fpivotColLabels df, cols := fpivotColLabels df ++ ["QTD"],
             bizRows := fpivotRowLabels df,
             rowLabels := fpivotRowLabels df ++ ["VRTU", "KPO", "VRTU Excl KPO"],
             cell := fun b c => if c = "QTD" then fqtdOf df col b else fcellD df col b c,
             vrtuRow := fvrtuAt df col,
             kpoRow := kpo,
             exclRow := fulfillExclRow (fpivotColLabels df ++ ["QTD"]) (fvrtuAt df col) kpo }
  else none

/-- The onsite fulfillment tables of `main` (lines 1562-1566):
`create_fulfillment_pivot(create_fulfillment_location_business_dataframe(
fulfillment_data, onsite), col, fulfillment_data)`. -/
def onsiteFulfillmentPivot (data : List Snapshot) (col : FulfillCol) :
    Option FulfillGrid :=
  match create_fulfillment_location_business_dataframe data "onsite" with
  | none => none
  | some df => create_fulfillment_pivot df col data

/-- The overall fulfillment tables of `main` (lines 1493, 1510, 1527, 1544)
with the business filter left at All. -/
def overallFulfillmentPivot (data : List Snapshot) (col : FulfillCol) :
    Option FulfillGrid :=
  match create_fulfillment_business_dataframe data with
  | none => none
  | some df => create_fulfillment_pivot df col data

/-! ## Definitions for comparison with the spec text -/

/-- First-appearance deduplication.  This definition follows the words of the SPEC
for P5 ("pivot column order equals first-appearance order of
quarters in the input sequence; row order equals first-appearance order of
businesses") and exists only to be compared with the sorted order the code
actually produces. -/
def firstAppAux : List String → List String → List String
  | [], _ => []
  | a :: l, seen =>
    if a ∈ seen then firstAppAux l seen else a :: firstAppAux l (a :: seen)

def specFirstAppearanceOrder (l : List String) : List String := firstAppAux l []

/-- Erase the location-scoped `filled_by_business` / `open_by_business`
sub-maps of a metric block. -/
def scrubBlock (b : MetricBlock) : MetricBlock :=
  { b with filled_by_business := none, open_by_business := none }

/-- Erase the location-scoped `filled_by_business` / `open_by_business`
sub-maps of every metric block of a snapshot (used to show the location
fulfillment extraction never reads them). -/
def scrubSubmaps (s : Snapshot) : Snapshot :=
  { s with metrics := s.metrics.map (fun p => (p.1, scrubBlock p.2)) }

/-! ## Concrete sample data (used by witnesses and counterexamples) -/

def bbA : List (String × ℚ) :=
  [("BET NA", 10), ("HIL", 20), ("GROWTH MARKETS", 30), ("PLATINUM AC-CITI", 5),
   ("PLATINUM AC-JPMC", 15), ("TIME", 20)]

def bbB : List (String × ℚ) :=
  [("BET NA", 12), ("HIL", 25), ("GROWTH MARKETS", 28), ("PLATINUM AC-CITI", 6),
   ("PLATINUM AC-JPMC", 19), ("TIME", 30)]

/-- FY25 Q1 headcount snapshot. -/
def snapX : Snapshot :=
  { fiscal_year := "FY25", quarter := "Q1", metrics :=
    [("total_billable_hc", { total := some 100, by_business := some bbA }),
     ("total_kpo_hc", { total := some 20 }),
     ("total_non_kpo_hc", { total := some 80 }),
     ("total_onsite_hc", { total := some 40 }),
     ("total_offshore_hc", { total := some 60 }),
     ("onsite_kpo_hc", { total := some 5 }),
     ("offshore_kpo_hc", { total := some 15 })] }

/-- FY25 Q2 headcount snapshot. -/
def snapY : Snapshot :=
  { fiscal_year := "FY25", quarter := "Q2", metrics :=
    [("total_billable_hc", { total := some 120, by_business := some bbB }),
     ("total_kpo_hc", { total := some 30 }),
     ("total_non_kpo_hc", { total := some 90 }),
     ("total_onsite_hc", { total := some 50 }),
     ("total_offshore_hc", { total := some 70 }),
     ("onsite_kpo_hc", { total := some 8 }),
     ("offshore_kpo_hc", { total := some 22 })] }

def hcData : List Snapshot := [snapX, snapY]

def hcRecs : List BRec := (create_business_dataframe hcData MetricType.hc).getD []

/-- The same two snapshots given in reverse label order (the engine is
fed the sequence as provided; nothing reorders it before pivoting). -/
def revData : List Snapshot := [snapY, snapX]

def revRecs : List BRec := (create_business_dataframe revData MetricType.hc).getD []

/-- A snapshot whose `total_billable_hc.by_business` map is missing the
catalog unit `TIME` (five entries only). -/
def bbNoTime : List (String × ℚ) :=
  [("BET NA", 10), ("HIL", 20), ("GROWTH MARKETS", 30),
   ("PLATINUM AC-CITI", 5), ("PLATINUM AC-JPMC", 15)]

def snapNoTime : Snapshot :=
  { fiscal_year := "FY25", quarter := "Q1", metrics :=
    [("total_billable_hc", { total := some 100, by_business := some bbNoTime })] }

def fT1 : List (String × ℚ) :=
  [("BET NA", 4), ("HIL", 6), ("GROWTH MARKETS", 10), ("PLATINUM AC-CITI", 2),
   ("PLATINUM AC-JPMC", 8), ("TIME", 10)]

def fF1 : List (String × ℚ) :=
  [("BET NA", 2), ("HIL", 3), ("GROWTH MARKETS", 5), ("PLATINUM AC-CITI", 1),
   ("PLATINUM AC-JPMC", 4), ("TIME", 5)]

def fR1 : List (String × ℚ) :=
  [("BET NA", 50), ("HIL", 50), ("GROWTH MARKETS", 50), ("PLATINUM AC-CITI", 50),
   ("PLATINUM AC-JPMC", 50), ("TIME", 50)]

def fOn1 : List (String × ℚ) :=
  [("BET NA", 2), ("HIL", 3), ("GROWTH MARKETS", 5), ("PLATINUM AC-CITI", 1),
   ("PLATINUM AC-JPMC", 4), ("TIME", 2)]

def fOff1 : List (String × ℚ) :=
  [("BET NA", 2), ("HIL", 3), ("GROWTH MARKETS", 5), ("PLATINUM AC-CITI", 1),
   ("PLATINUM AC-JPMC", 4), ("TIME", 8)]

/-- Genuine location-level filled counts recorded in the data: the onsite
TIME figure (7) deliberately differs from the proportional estimate (1). -/
def fOnFilled1 : List (String × ℚ) :=
  [("BET NA", 1), ("HIL", 2), ("GROWTH MARKETS", 3), ("PLATINUM AC-CITI", 1),
   ("PLATINUM AC-JPMC", 2), ("TIME", 7)]

def fOnOpen1 : List (String × ℚ) :=
  [("BET NA", 1), ("HIL", 1), ("GROWTH MARKETS", 2), ("PLATINUM AC-CITI", 0),
   ("PLATINUM AC-JPMC", 2), ("TIME", 1)]

/-- FY25 Q1 fulfillment snapshot (with a `kpo_demands` block). -/
def fsnap1 : Snapshot :=
  { fiscal_year := "FY25", quarter := "Q1", metrics :=
    [("total_demands", { total := some 40, by_business := some fT1 }),
     ("filled_demands", { total := some 20, by_business := some fF1 }),
     ("open_demands", { total := some 20, by_business := some fF1 }),
     ("cancelled_demands", { total := some 0 }),
     ("expired_demands", { total := some 0 }),
     ("fulfillment_rate", { overall := some 50, by_business := some fR1 }),
     ("onsite_demands",
      { total := some 17, by_business := some fOn1,
        filled_by_business := some fOnFilled1, open_by_business := some fOnOpen1 }),
     ("offshore_demands", { total := some 23, by_business := some fOff1 }),
     ("kpo_demands", { total := some 5, filled := some 3, open_ := some 2 })] }

def fT2 : List (String × ℚ) :=
  [("BET NA", 6), ("HIL", 4), ("GROWTH MARKETS", 12), ("PLATINUM AC-CITI", 4),
   ("PLATINUM AC-JPMC", 6), ("TIME", 12)]

def fF2 : List (String × ℚ) :=
  [("BET NA", 3), ("HIL", 2), ("GROWTH MARKETS", 6), ("PLATINUM AC-CITI", 2),
   ("PLATINUM AC-JPMC", 3), ("TIME", 6)]

def fOn2 : List (String × ℚ) :=
  [("BET NA", 3), ("HIL", 2), ("GROWTH MARKETS", 6), ("PLATINUM AC-CITI", 2),
   ("PLATINUM AC-JPMC", 3), ("TIME", 4)]

def fOff2 : List (String × ℚ) :=
  [("BET NA", 3), ("HIL", 2), ("GROWTH MARKETS", 6), ("PLATINUM AC-CITI", 2),
   ("PLATINUM AC-JPMC", 3), ("TIME", 8)]

/-- FY25 Q2 fulfillment snapshot. -/
def fsnap2 : Snapshot :=
  { fiscal_year := "FY25", quarter := "Q2", metrics :=
    [("total_demands", { total := some 44, by_business := some fT2 }),
     ("filled_demands", { total := some 22, by_business := some fF2 }),
     ("open_demands", { total := some 22, by_business := some fF2 }),
     ("cancelled_demands", { total := some 0 }),
     ("expired_demands", { total := some 0 }),
     ("fulfillment_rate", { overall := some 50, by_business := some fR1 }),
     ("onsite_demands", { total := some 20, by_business := some fOn2 }),
     ("offshore_demands", { total := some 24, by_business := some fOff2 }),
     ("kpo_demands", { total := some 6, filled := some 4, open_ := some 2 })] }

def fData : List Snapshot := [fsnap1, fsnap2]

def fRecs : List FRec := (create_fulfillment_business_dataframe fData).getD []

/-- Records with a duplicated (Business, Quarter) cell. -/
def dupRecs : List BRec :=
  [{ Quarter := "FY25 Q1", Business := "HIL", Total := 1 },
   { Quarter := "FY25 Q1", Business := "HIL", Total := 2 }]

def dupFRecs : List FRec :=
  [{ Quarter := "FY25 Q1", Business := "HIL", Total := 1, Filled := 1, Open := 0,
     Fulfillment_Rate := 100 },
   { Quarter := "FY25 Q1", Business := "HIL", Total := 2, Filled := 1, Open := 1,
     Fulfillment_Rate := 50 }]

/-- A fulfillment snapshot whose `total_demands.by_business` map is
missing the catalog unit `TIME`. -/
def fsnapNoTime : Snapshot :=
  { fiscal_year := "FY25", quarter := "Q1", metrics :=
    [("total_demands", { total := some 40, by_business := some bbNoTime }),
     ("filled_demands", { total := some 20, by_business := some fF1 }),
     ("open_demands", { total := some 20, by_business := some fF1 }),
     ("fulfillment_rate", { overall := some 50, by_business := some fR1 })] }

def snapXRecs : List BRec := (create_business_dataframe [snapX] MetricType.hc).getD []

/-- The enriched overall HC grid of the two-quarter sample. -/
def hcGridOverall : EnhancedGrid :=
  (create_enhanced_pivot_table hcRecs hcData MetricType.hc TableTitle.Overall).get
    (by decide)

/-- The enriched overall fulfillment Total grid of the sample. -/
def fulGridTotal : FulfillGrid :=
  (create_fulfillment_pivot fRecs FulfillCol.Total fData).get (by decide)

/-- The enriched overall HC grid of the two snapshots given in reverse
label order. -/
def revGridOverall : EnhancedGrid :=
  (create_enhanced_pivot_table revRecs revData MetricType.hc TableTitle.Overall).get
    (by decide)

/-- The onsite fulfillment Total grid of the sample. -/
def onsiteGridTotal : FulfillGrid :=
  (onsiteFulfillmentPivot fData FulfillCol.Total).get (by decide)

/-! ## Helper lemmas -/

theorem omap_congr {α β : Type} {f g : α → Option β} {l : List α}
    (h : ∀ a ∈ l, f a = g a) : omap f l = omap g l := by
  induction l with
  | nil => rfl
  | cons x xs ih =>
    simp only [omap]
    rw [h x (List.mem_cons_self x xs), ih (fun a ha => h a (List.mem_cons_of_mem x ha))]

theorem omap_map {α β γ : Type} (f : β → Option γ) (g : α → β) (l : List α) :
    omap f (l.map g) = omap (fun a => f (g a)) l := by
  induction l with
  | nil => rfl
  | cons x xs ih => simp only [List.map, omap, ih]

/-- Every element of a successful `omap` result comes from some source
element. -/
theorem omap_some_src {α β : Type} {f : α → Option β} {l : List α} {l' : List β}
    (h : omap f l = some l') : ∀ b ∈ l', ∃ a ∈ l, f a = some b := by
  induction l generalizing l' with
  | nil =>
    simp only [omap, Option.some.injEq] at h
    subst h; intro b hb; cases hb
  | cons x xs ih =>
    simp only [omap] at h
    cases hx : f x with
    | none => rw [hx] at h; cases h
    | some b0 =>
      rw [hx] at h
      cases hrest : omap f xs with
      | none => rw [hrest] at h; cases h
      | some bs =>
        rw [hrest] at h
        cases h
        intro b hb
        rcases List.mem_cons.mp hb with hb | hb
        · exact ⟨x, List.mem_cons_self x xs, hb ▸ hx⟩
        · obtain ⟨a, ha, hfa⟩ := ih hrest b hb
          exact ⟨a, List.mem_cons_of_mem x ha, hfa⟩

/-- Every source element of a successful `omap` lands in the result. -/
theorem omap_some_dst {α β : Type} {f : α → Option β} {l : List α} {l' : List β}
    (h : omap f l = some l') : ∀ a ∈ l, ∃ b ∈ l', f a = some b := by
  induction l generalizing l' with
  | nil => intro a ha; cases ha
  | cons x xs ih =>
    simp only [omap] at h
    cases hx : f x with
    | none => rw [hx] at h; cases h
    | some b0 =>
      rw [hx] at h
      cases hrest : omap f xs with
      | none => rw [hrest] at h; cases h
      | some bs =>
        rw [hrest] at h
        cases h
        intro a ha
        rcases List.mem_cons.mp ha with ha | ha
        · exact ⟨b0, List.mem_cons_self b0 bs, ha ▸ hx⟩
        · obtain ⟨b, hb, hfb⟩ := ih hrest a ha
          exact ⟨b, List.mem_cons_of_mem b0 hb, hfb⟩

theorem list_map_congr {α β : Type} {f g : α → β} (l : List α)
    (h : ∀ a ∈ l, f a = g a) : l.map f = l.map g := by
  induction l with
  | nil => rfl
  | cons x xs ih =>
    simp only [List.map]
    rw [h x (List.mem_cons_self x xs), ih (fun a ha => h a (List.mem_cons_of_mem x ha))]

theorem sum_map_sub (l : List String) (f g : String → ℚ) :
    (l.map (fun b => f b - g b)).sum = (l.map f).sum - (l.map g).sum := by
  induction l with
  | nil => simp
  | cons x xs ih =>
    simp only [List.map, List.sum_cons, ih]
    ring

theorem last2_mem {α : Type} {l : List α} {s t : α} (h : last2 l = some (s, t)) :
    s ∈ l ∧ t ∈ l := by
  unfold last2 at h
  cases hr : l.reverse with
  | nil => rw [hr] at h; cases h
  | cons a rest =>
    cases rest with
    | nil => rw [hr] at h; cases h
    | cons b rest' =>
      rw [hr] at h
      cases h
      constructor
      · have : s ∈ l.reverse := by rw [hr]; exact List.mem_cons_of_mem _ (List.mem_cons_self _ _)
        exact List.mem_reverse.mp this
      · have : t ∈ l.reverse := by rw [hr]; exact List.mem_cons_self _ _
        exact List.mem_reverse.mp this

theorem last2_eq_none_of_short {α : Type} {l : List α} (h : l.length < 2) :
    last2 l = none := by
  unfold last2
  cases hr : l.reverse with
  | nil => rfl
  | cons a rest =>
    cases rest with
    | nil => rfl
    | cons b rest' =>
      exfalso
      have hlen := congrArg List.length hr
      simp only [List.length_reverse, List.length_cons] at hlen
      omega

theorem last2_isSome_of_long {α : Type} {l : List α} (h : 2 ≤ l.length) :
    ∃ s t, last2 l = some (s, t) := by
  unfold last2
  cases hr : l.reverse with
  | nil =>
    exfalso
    have := congrArg List.length hr
    simp only [List.length_reverse, List.length_nil] at this
    omega
  | cons a rest =>
    cases rest with
    | nil =>
      exfalso
      have := congrArg List.length hr
      simp only [List.length_reverse] at this
      simp at this
      omega
    | cons b rest' => exact ⟨b, a, rfl⟩

/-- Inversion of a successful `create_enhanced_pivot_table`. -/
theorem enhanced_pivot_inv {recs : List BRec} {data : List Snapshot}
    {mt : MetricType} {title : TableTitle} {g : EnhancedGrid}
    (h : create_enhanced_pivot_table recs data mt title = some g) :
    (recs.map recKey).Nodup ∧
    ∃ kpo excl, enhancedKpoRow data mt title = some kpo ∧
      enhancedExclRow (vrtuAt recs) kpo (pivotColLabels recs ++ ["QTD"]) = some excl ∧
      g.qcols = pivotColLabels recs ∧
      g.cols = pivotColLabels recs ++ ["QTD"] ∧
      g.bizRows = pivotRowLabels recs ∧
      g.rowLabels = pivotRowLabels recs ++ ["VRTU", "KPO", "VRTU Excl KPO"] ∧
      g.cell = (fun b c => if c = "QTD" then qtdOf recs b else cellD recs b c) ∧
      g.vrtuRow = vrtuAt recs ∧ g.kpoRow = kpo ∧ g.exclRow = excl := by
  unfold create_enhanced_pivot_table at h
  split at h
  case isFalse => cases h
  case isTrue hnd =>
    refine ⟨hnd, ?_⟩
    cases hk : enhancedKpoRow data mt title with
    | none => rw [hk] at h; cases h
    | some kpo =>
      rw [hk] at h
      simp only at h
      cases he : enhancedExclRow (vrtuAt recs) kpo (pivotColLabels recs ++ ["QTD"]) with
      | none => rw [he] at h; cases h
      | some excl =>
        rw [he] at h
        simp only [Option.some.injEq] at h
        subst h
        exact ⟨kpo, excl, rfl, he, rfl, rfl, rfl, rfl, rfl, rfl, rfl, rfl⟩

/-- Inversion of a successful `create_fulfillment_pivot`. -/
theorem fulfillment_pivot_inv {df : List FRec} {col : FulfillCol}
    {ds : List Snapshot} {g : FulfillGrid}
    (h : create_fulfillment_pivot df col ds = some g) :
    (df.map frecKey).Nodup ∧
    ∃ kpo, fulfillKpoRow ds (fpivotColLabels df ++ ["QTD"]) col = some kpo ∧
      g.qcols = fpivotColLabels df ∧
      g.cols = fpivotColLabels df ++ ["QTD"] ∧
      g.bizRows = fpivotRowLabels df ∧
      g.rowLabels = fpivotRowLabels df ++ ["VRTU", "KPO", "VRTU Excl KPO"] ∧
      g.cell = (fun b c => if c = "QTD" then fqtdOf df col b else fcellD df col b c) ∧
      g.vrtuRow = fvrtuAt df col ∧ g.kpoRow = kpo ∧
      g.exclRow = fulfillExclRow (fpivotColLabels df ++ ["QTD"]) (fvrtuAt df col) kpo := by
  unfold create_fulfillment_pivot at h
  split at h
  case isFalse => cases h
  case isTrue hnd =>
    refine ⟨hnd, ?_⟩
    cases hk : fulfillKpoRow ds (fpivotColLabels df ++ ["QTD"]) col with
    | none => rw [hk] at h; cases h
    | some kpo =>
      rw [hk] at h
      simp only [Option.some.injEq] at h
      subst h
      exact ⟨kpo, rfl, rfl, rfl, rfl, rfl, rfl, rfl, rfl, rfl⟩

/-- Lookup in `fulfillExclRow`: every column has an entry, equal to VRTU
minus KPO when the column is in the KPO dict and to VRTU otherwise. -/
theorem dget_fulfillExclRow (cols : List String) (vrtu : String → ℚ)
    (kpo : List (String × ℚ)) (c : String) (hc : c ∈ cols) :
    dget (fulfillExclRow cols vrtu kpo) c =
      some (match dget kpo c with
            | some k => vrtu c - k
            | none => vrtu c) := by
  induction cols with
  | nil => cases hc
  | cons x xs ih =>
    simp only [fulfillExclRow, List.map]
    rw [dget_cons]
    by_cases hx : x = c
    · subst hx
      rw [if_pos rfl]
    · rw [if_neg hx]
      exact ih (by rcases List.mem_cons.mp hc with h | h; exact absurd h.symm hx; exact h)

theorem enhancedExclRow_cons (vrtu : String → ℚ) (kpo : List (String × ℚ))
    (c : String) (cs : List String) :
    enhancedExclRow vrtu kpo (c :: cs) =
      if c = "QTD" then
        match dget kpo c with
        | none => none
        | some k => (enhancedExclRow vrtu kpo cs).map (fun m => (c, vrtu c - k) :: m)
      else
        match dget kpo c with
        | some k => (enhancedExclRow vrtu kpo cs).map (fun m => (c, vrtu c - k) :: m)
        | none => enhancedExclRow vrtu kpo cs := rfl

/-- Lookup in a successful `enhancedExclRow`: every column that has a KPO
entry has an excl entry equal to VRTU minus KPO. -/
theorem dget_enhancedExclRow {vrtu : String → ℚ} {kpo : List (String × ℚ)}
    {cols : List String} {m : List (String × ℚ)}
    (h : enhancedExclRow vrtu kpo cols = some m) (c : String) (hc : c ∈ cols)
    (k : ℚ) (hk : dget kpo c = some k) :
    dget m c = some (vrtu c - k) := by
  induction cols generalizing m with
  | nil => cases hc
  | cons x xs ih =>
    rw [enhancedExclRow_cons] at h
    by_cases hq : x = "QTD"
    · rw [if_pos hq] at h
      cases hkq : dget kpo x with
      | none => rw [hkq] at h; cases h
      | some kq =>
        rw [hkq] at h
        cases hrest : enhancedExclRow vrtu kpo xs with
        | none => rw [hrest] at h; cases h
        | some m' =>
          rw [hrest] at h
          simp only [Option.map_some'] at h
          cases h
          rw [dget_cons]
          by_cases hxc : x = c
          · subst hxc
            rw [if_pos rfl]
            rw [hkq] at hk
            cases hk
            rfl
          · rw [if_neg hxc]
            exact ih hrest (by
              rcases List.mem_cons.mp hc with hh | hh
              · exact absurd hh.symm hxc
              · exact hh)
    · rw [if_neg hq] at h
      cases hkx : dget kpo x with
      | some kx =>
        rw [hkx] at h
        cases hrest : enhancedExclRow vrtu kpo xs with
        | none => rw [hrest] at h; cases h
        | some m' =>
          rw [hrest] at h
          simp only [Option.map_some'] at h
          cases h
          rw [dget_cons]
          by_cases hxc : x = c
          · subst hxc
            rw [if_pos rfl]
            rw [hkx] at hk
            cases hk
            rfl
          · rw [if_neg hxc]
            exact ih hrest (by
              rcases List.mem_cons.mp hc with hh | hh
              · exact absurd hh.symm hxc
              · exact hh)
      | none =>
        rw [hkx] at h
        rcases List.mem_cons.mp hc with hh | hh
        · subst hh
          rw [hkx] at hk
          cases hk
        · exact ih h hh

/-- A nonempty list all of whose elements equal `a` has `sortedDedup = [a]`. -/
theorem sortedDedup_const {l : List String} {a : String}
    (hne : l ≠ []) (h : ∀ x ∈ l, x = a) : sortedDedup l = [a] := by
  have : sortedDedup l = sortedDedup [a] := by
    apply sortedDedup_congr
    intro x
    constructor
    · intro hx
      simp [h x hx]
    · intro hx
      simp only [List.mem_singleton] at hx
      subst hx
      cases l with
      | nil => exact absurd rfl hne
      | cons y ys => exact (h y (List.mem_cons_self y ys)) ▸ List.mem_cons_self y ys
  simpa [sortedDedup, insertS] using this

theorem businessRecord_quarter {qd : Snapshot} {key b : String} {r : BRec}
    (h : businessRecord qd key b = some r) : r.Quarter = quarterLabel qd := by
  unfold businessRecord at h
  split at h
  · cases h
  · split at h
    · cases h
    · split at h
      · cases h
      · cases h; rfl

theorem fulfillBusinessRecord_quarter {qd : Snapshot} {b : String} {r : FRec}
    (h : fulfillBusinessRecord qd b = some r) : r.Quarter = quarterLabel qd := by
  unfold fulfillBusinessRecord at h
  split at h
  · cases h; rfl
  · cases h

theorem fulfillLocationRecord_quarter {qd : Snapshot} {lk b : String} {r : FRec}
    (h : fulfillLocationRecord qd lk b = some r) : r.Quarter = quarterLabel qd := by
  unfold fulfillLocationRecord at h
  split at h
  · cases h; rfl
  · cases h

/-- Quarters appearing in an extracted dataframe are exactly the labels of
the snapshot sequence (every extraction emits one record per business and
snapshot). -/
theorem df_quarters_mem {ρ : Type} (f : Snapshot → String → Option ρ)
    (qtr : ρ → String)
    (hq : ∀ qd b r, f qd b = some r → qtr r = quarterLabel qd)
    {data : List Snapshot} {df : List ρ}
    (h : (omap (fun qd => omap (f qd) businesses) data).map List.flatten = some df) :
    ∀ x, x ∈ df.map qtr ↔ x ∈ data.map quarterLabel := by
  cases houter : omap (fun qd => omap (f qd) businesses) data with
  | none => rw [houter] at h; cases h
  | some dfs =>
    rw [houter] at h
    simp only [Option.map_some', Option.some.injEq] at h
    subst h
    intro x
    constructor
    · intro hx
      rcases List.mem_map.mp hx with ⟨r, hr, hrx⟩
      rcases List.mem_flatten.mp hr with ⟨l, hl, hrl⟩
      rcases omap_some_src houter l hl with ⟨qd, hqd, hinner⟩
      rcases omap_some_src hinner r hrl with ⟨b, hb, hfb⟩
      rw [← hrx, hq qd b r hfb]
      exact List.mem_map.mpr ⟨qd, hqd, rfl⟩
    · intro hx
      rcases List.mem_map.mp hx with ⟨qd, hqd, hqx⟩
      rcases omap_some_dst houter qd hqd with ⟨l, hl, hinner⟩
      have hbet : "BET NA" ∈ businesses := by decide
      rcases omap_some_dst hinner "BET NA" hbet with ⟨r, hr, hfb⟩
      refine List.mem_map.mpr ⟨r, List.mem_flatten.mpr ⟨l, hl, hr⟩, ?_⟩
      rw [hq qd "BET NA" r hfb, hqx]

theorem dget_map {α β : Type} (f : α → β) (m : List (String × α)) (k : String) :
    dget (m.map (fun p => (p.1, f p.2))) k = (dget m k).map f := by
  induction m with
  | nil => rfl
  | cons p m ih =>
    simp only [List.map]
    rw [show ((p.1, f p.2) : String × β) = ((p.1, f p.2).1, (p.1, f p.2).2) from rfl,
        dget_cons, dget_cons]
    by_cases h : p.1 = k
    · rw [if_pos h, if_pos h]
      rfl
    · rw [if_neg h, if_neg h]
      exact ih

/-- Scrubbing the location sub-maps does not change any `by_business`
lookup. -/
theorem byBusinessVal_scrub (qd : Snapshot) (key b : String) :
    byBusinessVal (scrubSubmaps qd) key b = byBusinessVal qd key b := by
  unfold byBusinessVal scrubSubmaps
  simp only
  rw [dget_map]
  cases dget qd.metrics key with
  | none => rfl
  | some blk => rfl

theorem fulfillLocationRecord_scrub (qd : Snapshot) (lk b : String) :
    fulfillLocationRecord (scrubSubmaps qd) lk b = fulfillLocationRecord qd lk b := by
  unfold fulfillLocationRecord
  rw [byBusinessVal_scrub, byBusinessVal_scrub, byBusinessVal_scrub, byBusinessVal_scrub]
  rw [show quarterLabel (scrubSubmaps qd) = quarterLabel qd from rfl]

/-- Lookup after `fulfillKpoQuartersAux` for a key never touched by the
remaining snapshots. -/
theorem fulfillKpoQuartersAux_dget_untouched {cols : List String} {col : FulfillCol} :
    ∀ {rest : List Snapshot} {acc dict : List (String × ℚ)},
      fulfillKpoQuartersAux cols col rest acc = some dict →
      ∀ k, k ∉ rest.map quarterLabel → dget dict k = dget acc k := by
  intro rest
  induction rest with
  | nil =>
    intro acc dict h k _
    cases h
    rfl
  | cons qd rest ih =>
    intro acc dict h k hk
    have hk1 : k ≠ quarterLabel qd := fun hh =>
      hk (hh ▸ List.mem_map.mpr ⟨qd, List.mem_cons_self qd rest, rfl⟩)
    have hk2 : k ∉ rest.map quarterLabel := fun hh =>
      hk (by
        rcases List.mem_map.mp hh with ⟨q, hq, hql⟩
        exact List.mem_map.mpr ⟨q, List.mem_cons_of_mem qd hq, hql⟩)
    unfold fulfillKpoQuartersAux at h
    split at h
    · cases hv : fulfillKpoVal qd col with
      | none => rw [hv] at h; cases h
      | some v =>
        rw [hv] at h
        rw [ih h k hk2, dget_dset_ne _ _ _ _ hk1]
    · exact ih h k hk2

/-- Lookup after `fulfillKpoQuartersAux`: with duplicate-free labels, a
snapshot whose label is among the pivot columns contributes exactly its
`fulfillKpoVal`. -/
theorem fulfillKpoQuartersAux_dget {cols : List String} {col : FulfillCol} :
    ∀ {rest : List Snapshot} {acc dict : List (String × ℚ)},
      (rest.map quarterLabel).Nodup →
      fulfillKpoQuartersAux cols col rest acc = some dict →
      ∀ qd ∈ rest, quarterLabel qd ∈ cols →
        ∀ v, fulfillKpoVal qd col = some v → dget dict (quarterLabel qd) = some v := by
  intro rest
  induction rest with
  | nil =>
    intro acc dict _ _ qd hqd
    cases hqd
  | cons qd0 rest ih =>
    intro acc dict hnd h qd hqd hcols v hv
    have hnd2 : (rest.map quarterLabel).Nodup := by
      simp only [List.map, List.nodup_cons] at hnd
      exact hnd.2
    rcases List.mem_cons.mp hqd with hh | hh
    · subst hh
      unfold fulfillKpoQuartersAux at h
      rw [if_pos hcols, hv] at h
      have hnotin : quarterLabel qd ∉ rest.map quarterLabel := by
        simp only [List.map, List.nodup_cons] at hnd
        exact hnd.1
      rw [fulfillKpoQuartersAux_dget_untouched h _ hnotin, dget_dset_self]
    · unfold fulfillKpoQuartersAux at h
      split at h
      · cases hv0 : fulfillKpoVal qd0 col with
        | none => rw [hv0] at h; cases h
        | some v0 =>
          rw [hv0] at h
          exact ih hnd2 h qd hh hcols v hv
      · exact ih hnd2 h qd hh hcols v hv

/-- Inversion of a successful `fulfillKpoRow`. -/
theorem fulfillKpoRow_inv {ds : List Snapshot} {cols : List String}
    {col : FulfillCol} {kpo : List (String × ℚ)}
    (h : fulfillKpoRow ds cols col = some kpo) :
    ∃ dict qtd, fulfillKpoQuartersAux cols col ds [] = some dict ∧
      kpo = dset dict "QTD" qtd := by
  unfold fulfillKpoRow at h
  cases hd : fulfillKpoQuartersAux cols col ds [] with
  | none => rw [hd] at h; cases h
  | some dict =>
    rw [hd] at h
    simp only [Option.some.injEq] at h
    exact ⟨dict, _, rfl, h.symm⟩

/-! ## Claim theorems -/

/-- Claim C3: for every part and every whole, if the whole is not strictly
positive then the derived ratio part / whole × 100 is 0 — never an error
and never NaN — uniformly for KPO share, non-KPO share, onsite/offshore
share, onsite-KPO share of onsite, offshore-KPO share of offshore,
fulfillment rate, and growth rate. -/
theorem C3_ratio_safety :
    (∀ part whole : ℚ, whole ≤ 0 →
      kpo_pct part whole = 0 ∧ non_kpo_pct part whole = 0 ∧
      onsite_pct part whole = 0 ∧ offshore_pct part whole = 0 ∧
      onsite_kpo_pct part whole = 0 ∧ offshore_kpo_pct part whole = 0) ∧
    (∀ filled opened : ℚ, filled + opened ≤ 0 →
      fulfillment_rate_of filled opened = 0) ∧
    (∀ first last : ℚ, first ≤ 0 → growth_pct first last = 0) := by
  refine ⟨?_, ?_, ?_⟩
  · intro part whole h
    refine ⟨?_, ?_, ?_, ?_, ?_, ?_⟩ <;>
      simp [kpo_pct, non_kpo_pct, onsite_pct, offshore_pct, onsite_kpo_pct,
            offshore_kpo_pct, not_lt.mpr h]
  · intro filled opened h
    simp [fulfillment_rate_of, not_lt.mpr h]
  · intro first last h
    simp [growth_pct, not_lt.mpr h]

/-- Witness for C3 at concrete inputs (includes the spec Scenario C
degenerate case filled=0, open=0 and the Scenario D case first_total=0). -/
theorem C3_ratio_safety_witness :
    kpo_pct 7 0 = 0 ∧ non_kpo_pct 7 0 = 0 ∧ onsite_pct 7 (-3) = 0 ∧
    offshore_pct 7 0 = 0 ∧ onsite_kpo_pct 7 0 = 0 ∧ offshore_kpo_pct 7 0 = 0 ∧
    fulfillment_rate_of 0 0 = 0 ∧ growth_pct 0 50 = 0 := by
  have h1 := C3_ratio_safety.1 7 0 le_rfl
  have h2 := C3_ratio_safety.1 7 (-3) (by norm_num)
  exact ⟨h1.1, h1.2.1, h2.2.2.1, h1.2.2.2.1, h1.2.2.2.2.1, h1.2.2.2.2.2,
         C3_ratio_safety.2.1 0 0 (by norm_num), C3_ratio_safety.2.2 0 50 le_rfl⟩

/-- Claim C10: growth rate is computed only pairwise between the
chronologically first and last snapshot of the sequence (the result is a
function of `head?` and `getLast?` alone, not quarter-over-quarter); for
fewer than 2 snapshots the computation is skipped entirely (`none`, no
metric produced); and when the value of the first snapshot is 0 the growth
rate is 0. -/
theorem C10_growth_first_last_only :
    (∀ (data : List Snapshot) (mt : MetricType), data.length < 2 →
      display_growth_metrics data mt = none) ∧
    (∀ (data : List Snapshot) (mt : MetricType) (g : Growth) (first : Snapshot),
      display_growth_metrics data mt = some g → data.head? = some first →
      metricTotal first (totalBillableKey mt) = some 0 → g.total_growth = 0) ∧
    (∀ (d1 d2 : List Snapshot) (mt : MetricType),
      2 ≤ d1.length → 2 ≤ d2.length → d1.head? = d2.head? →
      d1.getLast? = d2.getLast? →
      display_growth_metrics d1 mt = display_growth_metrics d2 mt) := by
  refine ⟨?_, ?_, ?_⟩
  · intro data mt h
    unfold display_growth_metrics
    rw [if_pos h]
  · intro data mt g first hg hh hft
    unfold display_growth_metrics at hg
    split at hg
    · cases hg
    · split at hg
      · rename_i f0 l0 hh0 hl0
        rw [hh] at hh0
        injection hh0 with hf0
        subst hf0
        split at hg
        · rename_i ft lt fk lk fn ln h1 h2 h3 h4 h5 h6
          rw [hft] at h1
          injection h1 with hft0
          subst hft0
          split at hg
          · injection hg with hg'
            subst hg'
            simp [growth_pct]
          · cases hg
        · cases hg
      · cases hg
  · intro d1 d2 mt h1 h2 hh hl
    unfold display_growth_metrics
    rw [if_neg (by omega), if_neg (by omega), hh, hl]

/-- Witness for C10: a one-snapshot sequence is skipped; the two-snapshot
sample produces a result that only depends on the ends; Scenario D
(first total 0) gives growth 0. -/
theorem C10_growth_first_last_only_witness :
    display_growth_metrics [snapX] MetricType.hc = none ∧
    display_growth_metrics [snapNoTime, snapX, snapY] MetricType.hc =
      display_growth_metrics [snapNoTime, snapY] MetricType.hc := by
  constructor
  · exact C10_growth_first_last_only.1 [snapX] MetricType.hc (by decide)
  · exact C10_growth_first_last_only.2.2 [snapNoTime, snapX, snapY]
      [snapNoTime, snapY] MetricType.hc (by decide) (by decide) (by decide) (by decide)

/-- Claim C6: a flat-record input with two records for the same
(Business, Quarter) pair makes pivoting fail (pandas `ValueError`, the
spec name `DuplicateCellError`) — in both pivot paths and in the enriched
constructors built on them — and never silently last-write-wins; a
duplicate-free input pivots successfully. -/
theorem C6_duplicate_cell_error :
    (∀ recs : List BRec, ¬ (recs.map recKey).Nodup →
      pandasPivot recs = none ∧
      ∀ data mt title, create_enhanced_pivot_table recs data mt title = none) ∧
    (∀ df : List FRec, ¬ (df.map frecKey).Nodup →
      (∀ col, pandasPivotF df col = none) ∧
      ∀ col ds, create_fulfillment_pivot df col ds = none) ∧
    (∀ recs : List BRec, (recs.map recKey).Nodup →
      pandasPivot recs = some ⟨pivotRowLabels recs, pivotColLabels recs, cellOf recs⟩) ∧
    (∀ (df : List FRec) (col : FulfillCol), (df.map frecKey).Nodup →
      pandasPivotF df col = some ⟨fpivotRowLabels df, fpivotColLabels df, fcellOf df col⟩) := by
  refine ⟨?_, ?_, ?_, ?_⟩
  · intro recs h
    constructor
    · unfold pandasPivot
      rw [if_neg h]
    · intro data mt title
      unfold create_enhanced_pivot_table
      rw [if_neg h]
  · intro df h
    constructor
    · intro col
      unfold pandasPivotF
      rw [if_neg h]
    · intro col ds
      unfold create_fulfillment_pivot
      rw [if_neg h]
  · intro recs h
    unfold pandasPivot
    rw [if_pos h]
  · intro df col h
    unfold pandasPivotF
    rw [if_pos h]

/-- Witness for C6: the concrete duplicated pair fails, the sample
extraction pivots. -/
theorem C6_duplicate_cell_error_witness :
    pandasPivot dupRecs = none ∧
    (∀ data mt title, create_enhanced_pivot_table dupRecs data mt title = none) ∧
    (∀ col ds, create_fulfillment_pivot dupFRecs col ds = none) ∧
    pandasPivot hcRecs = some ⟨pivotRowLabels hcRecs, pivotColLabels hcRecs, cellOf hcRecs⟩ := by
  refine ⟨(C6_duplicate_cell_error.1 dupRecs (by decide)).1,
          (C6_duplicate_cell_error.1 dupRecs (by decide)).2,
          (C6_duplicate_cell_error.2.1 dupFRecs (by decide)).2,
          C6_duplicate_cell_error.2.2.1 hcRecs (by decide)⟩

/-- Claim C1: in every enriched pivot grid, at every column (the QTD column
included) with a KPO entry, VRTU = KPO + (VRTU Excl KPO); at a quarter
column with no KPO entry the VRTU Excl KPO cell of the fulfillment tables
equals the VRTU cell unchanged, and the cell is always present (the
computation does not fail on the missing key). -/
theorem C1_vrtu_decomposition :
    (∀ (df : List FRec) (col : FulfillCol) (ds : List Snapshot) (g : FulfillGrid),
      create_fulfillment_pivot df col ds = some g →
      ∀ c ∈ g.cols, ∃ e, dget g.exclRow c = some e ∧
        (∀ k, dget g.kpoRow c = some k → g.vrtuRow c = k + e) ∧
        (dget g.kpoRow c = none → e = g.vrtuRow c)) ∧
    (∀ (recs : List BRec) (data : List Snapshot) (mt : MetricType)
       (title : TableTitle) (g : EnhancedGrid),
      create_enhanced_pivot_table recs data mt title = some g →
      ∀ c ∈ g.cols, ∀ k, dget g.kpoRow c = some k →
        ∃ e, dget g.exclRow c = some e ∧ g.vrtuRow c = k + e) := by
  constructor
  · intro df col ds g hg c hc
    obtain ⟨-, kpo, -, -, hcols, -, -, -, hvrtu, hkpo, hexcl⟩ := fulfillment_pivot_inv hg
    rw [hcols] at hc
    rw [hexcl, hkpo, hvrtu, dget_fulfillExclRow _ _ _ c hc]
    cases hk : dget kpo c with
    | some k0 =>
      refine ⟨fvrtuAt df col c - k0, rfl, ?_, ?_⟩
      · intro k hk2
        cases hk2
        ring
      · intro hnone
        cases hnone
    | none =>
      refine ⟨fvrtuAt df col c, rfl, ?_, fun _ => rfl⟩
      intro k hk2
      cases hk2
  · intro recs data mt title g hg c hc k hk
    obtain ⟨-, kpo, excl, -, hexcl, -, hcols, -, -, -, hvrtu, hkpo, hexclRow⟩ :=
      enhanced_pivot_inv hg
    rw [hcols] at hc
    rw [hkpo] at hk
    rw [hexclRow, hvrtu]
    exact ⟨vrtuAt recs c - k, dget_enhancedExclRow hexcl c hc k hk, by ring⟩

unseal Rat.add Rat.sub Rat.mul Rat.inv in
/-- Witness for C1 on the concrete overall fulfillment grid: at FY25 Q1
the KPO row is 5, the VRTU Excl KPO row is 35, and VRTU = 5 + 35. -/
theorem C1_vrtu_decomposition_witness :
    dget fulGridTotal.kpoRow "FY25 Q1" = some 5 ∧
    dget fulGridTotal.exclRow "FY25 Q1" = some 35 ∧
    fulGridTotal.vrtuRow "FY25 Q1" = 5 + 35 := by
  have h : create_fulfillment_pivot fRecs FulfillCol.Total fData = some fulGridTotal :=
    (Option.some_get _).symm
  obtain ⟨e, he, hk, -⟩ :=
    C1_vrtu_decomposition.1 fRecs FulfillCol.Total fData fulGridTotal h
      "FY25 Q1" (by decide)
  have hkpo : dget fulGridTotal.kpoRow "FY25 Q1" = some 5 := by decide
  have he' : dget fulGridTotal.exclRow "FY25 Q1" = some 35 := by decide
  have : e = 35 := by
    rw [he] at he'
    exact Option.some.inj he'
  exact ⟨hkpo, he', by rw [← this]; exact hk 5 hkpo⟩

/-- Claim C2: for every pivot grid with at least two quarter columns, the
QTD cell of the VRTU row equals the sum of the QTD values of the
business-unit rows, and this sum equals the last-minus-second-to-last difference of the
per-quarter sums of the VRTU row itself (in both the HC/FTE and the fulfillment
constructors). -/
theorem C2_qtd_linearity :
    (∀ (recs : List BRec) (data : List Snapshot) (mt : MetricType)
       (title : TableTitle) (g : EnhancedGrid) (s t : String),
      create_enhanced_pivot_table recs data mt title = some g →
      "QTD" ∉ recs.map BRec.Quarter →
      last2 g.qcols = some (s, t) →
      g.vrtuRow "QTD" = (g.bizRows.map (fun b => g.cell b "QTD")).sum ∧
      g.vrtuRow "QTD" = g.vrtuRow t - g.vrtuRow s) ∧
    (∀ (df : List FRec) (col : FulfillCol) (ds : List Snapshot)
       (g : FulfillGrid) (s t : String),
      create_fulfillment_pivot df col ds = some g →
      "QTD" ∉ df.map FRec.Quarter →
      last2 g.qcols = some (s, t) →
      g.vrtuRow "QTD" = (g.bizRows.map (fun b => g.cell b "QTD")).sum ∧
      g.vrtuRow "QTD" = g.vrtuRow t - g.vrtuRow s) := by
  constructor
  · intro recs data mt title g s t hg hQ hlast
    obtain ⟨-, kpo, excl, -, -, hqcols, -, hbiz, -, hcell, hvrtu, -, -⟩ :=
      enhanced_pivot_inv hg
    rw [hqcols] at hlast
    have hs := (last2_mem hlast).1
    have ht := (last2_mem hlast).2
    have hsQ : s ≠ "QTD" := fun hh =>
      hQ (hh ▸ (mem_sortedDedup s _).mp hs)
    have htQ : t ≠ "QTD" := fun hh =>
      hQ (hh ▸ (mem_sortedDedup t _).mp ht)
    have hqtd : ∀ b, qtdOf recs b = cellD recs b t - cellD recs b s := by
      intro b
      simp [qtdOf, hlast]
    constructor
    · rw [hvrtu, hbiz, hcell]
      simp [vrtuAt, hlast]
    · rw [hvrtu]
      have h1 : vrtuAt recs "QTD" = ((pivotRowLabels recs).map (qtdOf recs)).sum := by
        simp [vrtuAt, hlast]
      have h2 : vrtuAt recs t = ((pivotRowLabels recs).map (fun b => cellD recs b t)).sum := by
        rw [vrtuAt, if_neg htQ]
      have h3 : vrtuAt recs s = ((pivotRowLabels recs).map (fun b => cellD recs b s)).sum := by
        rw [vrtuAt, if_neg hsQ]
      rw [h1, h2, h3, list_map_congr _ (fun b _ => hqtd b)]
      exact sum_map_sub _ _ _
  · intro df col ds g s t hg hQ hlast
    obtain ⟨-, kpo, -, hqcols, -, hbiz, -, hcell, hvrtu, -, -⟩ :=
      fulfillment_pivot_inv hg
    rw [hqcols] at hlast
    have hs := (last2_mem hlast).1
    have ht := (last2_mem hlast).2
    have hsQ : s ≠ "QTD" := fun hh =>
      hQ (hh ▸ (mem_sortedDedup s _).mp hs)
    have htQ : t ≠ "QTD" := fun hh =>
      hQ (hh ▸ (mem_sortedDedup t _).mp ht)
    have hqtd : ∀ b, fqtdOf df col b = fcellD df col b t - fcellD df col b s := by
      intro b
      simp [fqtdOf, hlast]
    constructor
    · rw [hvrtu, hbiz, hcell]
      simp [fvrtuAt]
    · rw [hvrtu]
      have h1 : fvrtuAt df col "QTD" = ((fpivotRowLabels df).map (fqtdOf df col)).sum := by
        simp [fvrtuAt]
      have h2 : fvrtuAt df col t =
          ((fpivotRowLabels df).map (fun b => fcellD df col b t)).sum := by
        rw [fvrtuAt, if_neg htQ]
      have h3 : fvrtuAt df col s =
          ((fpivotRowLabels df).map (fun b => fcellD df col b s)).sum := by
        rw [fvrtuAt, if_neg hsQ]
      rw [h1, h2, h3, list_map_congr _ (fun b _ => hqtd b)]
      exact sum_map_sub _ _ _

unseal Rat.add Rat.sub Rat.mul Rat.inv in
/-- Witness for C2 on the concrete two-quarter HC grid (spec Scenario A
shape): VRTU.QTD = 20 = 120 - 100. -/
theorem C2_qtd_linearity_witness :
    hcGridOverall.vrtuRow "QTD" =
      (hcGridOverall.bizRows.map (fun b => hcGridOverall.cell b "QTD")).sum ∧
    hcGridOverall.vrtuRow "QTD" =
      hcGridOverall.vrtuRow "FY25 Q2" - hcGridOverall.vrtuRow "FY25 Q1" ∧
    hcGridOverall.vrtuRow "QTD" = 20 := by
  have h : create_enhanced_pivot_table hcRecs hcData MetricType.hc TableTitle.Overall =
      some hcGridOverall := (Option.some_get _).symm
  have hm := C2_qtd_linearity.1 hcRecs hcData MetricType.hc TableTitle.Overall
    hcGridOverall "FY25 Q1" "FY25 Q2" h (by decide) (by decide)
  exact ⟨hm.1, hm.2, by decide⟩

/-- Claim C4: the QTD column is the rightmost column; with at least two
quarter columns the QTD value of each row is its last-quarter value minus its
second-to-last-quarter value; with fewer than two quarter columns (in
particular for a single-snapshot sequence) QTD is 0 for every row. -/
theorem C4_qtd_column :
    (∀ (recs : List BRec) (data : List Snapshot) (mt : MetricType)
       (title : TableTitle) (g : EnhancedGrid),
      create_enhanced_pivot_table recs data mt title = some g →
      "QTD" ∉ recs.map BRec.Quarter →
      g.cols = g.qcols ++ ["QTD"] ∧
      (∀ s t, last2 g.qcols = some (s, t) →
        ∀ b, g.cell b "QTD" = g.cell b t - g.cell b s) ∧
      (g.qcols.length < 2 → ∀ b, g.cell b "QTD" = 0)) ∧
    (∀ (df : List FRec) (col : FulfillCol) (ds : List Snapshot) (g : FulfillGrid),
      create_fulfillment_pivot df col ds = some g →
      "QTD" ∉ df.map FRec.Quarter →
      g.cols = g.qcols ++ ["QTD"] ∧
      (∀ s t, last2 g.qcols = some (s, t) →
        ∀ b, g.cell b "QTD" = g.cell b t - g.cell b s) ∧
      (g.qcols.length < 2 → ∀ b, g.cell b "QTD" = 0)) ∧
    (∀ (snap : Snapshot) (mt : MetricType) (recs : List BRec),
      create_business_dataframe [snap] mt = some recs →
      (pivotColLabels recs).length < 2 ∧ ∀ b, qtdOf recs b = 0) := by
  refine ⟨?_, ?_, ?_⟩
  · intro recs data mt title g hg hQ
    obtain ⟨-, kpo, excl, -, -, hqcols, hcols, -, -, hcell, -, -, -⟩ :=
      enhanced_pivot_inv hg
    refine ⟨by rw [hcols, hqcols], ?_, ?_⟩
    · intro s t hlast b
      rw [hqcols] at hlast
      have hs := (last2_mem hlast).1
      have ht := (last2_mem hlast).2
      have hsQ : s ≠ "QTD" := fun hh =>
        hQ (hh ▸ (mem_sortedDedup s _).mp hs)
      have htQ : t ≠ "QTD" := fun hh =>
        hQ (hh ▸ (mem_sortedDedup t _).mp ht)
      rw [hcell]
      simp only [if_pos rfl, if_neg htQ, if_neg hsQ]
      simp [qtdOf, hlast]
    · intro hlen b
      rw [hqcols] at hlen
      rw [hcell]
      simp [qtdOf, last2_eq_none_of_short hlen]
  · intro df col ds g hg hQ
    obtain ⟨-, kpo, -, hqcols, hcols, -, -, hcell, -, -, -⟩ :=
      fulfillment_pivot_inv hg
    refine ⟨by rw [hcols, hqcols], ?_, ?_⟩
    · intro s t hlast b
      rw [hqcols] at hlast
      have hs := (last2_mem hlast).1
      have ht := (last2_mem hlast).2
      have hsQ : s ≠ "QTD" := fun hh =>
        hQ (hh ▸ (mem_sortedDedup s _).mp hs)
      have htQ : t ≠ "QTD" := fun hh =>
        hQ (hh ▸ (mem_sortedDedup t _).mp ht)
      rw [hcell]
      simp only [if_pos rfl, if_neg htQ, if_neg hsQ]
      simp [fqtdOf, hlast]
    · intro hlen b
      rw [hqcols] at hlen
      rw [hcell]
      simp [fqtdOf, last2_eq_none_of_short hlen]
  · intro snap mt recs h
    have hmem := df_quarters_mem (fun qd => businessRecord qd (totalBillableKey mt))
      BRec.Quarter (fun qd b r hr => businessRecord_quarter hr) h
    have hcols : pivotColLabels recs = [quarterLabel snap] := by
      unfold pivotColLabels
      have : ∀ x, x ∈ recs.map BRec.Quarter ↔ x ∈ [quarterLabel snap] := by
        intro x
        rw [hmem x]
        simp
      rw [sortedDedup_congr _ _ this]
      rfl
    constructor
    · rw [hcols]
      simp
    · intro b
      unfold qtdOf
      rw [hcols]
      rfl

unseal Rat.add Rat.sub Rat.mul Rat.inv in
/-- Witness for C4: on the two-quarter sample the QTD of each business row is
the Q2 minus Q1 difference (HIL: 25 - 20 = 5, spec Scenario A), and a
single-snapshot extraction yields QTD 0 for every row. -/
theorem C4_qtd_column_witness :
    hcGridOverall.cell "HIL" "QTD" =
      hcGridOverall.cell "HIL" "FY25 Q2" - hcGridOverall.cell "HIL" "FY25 Q1" ∧
    hcGridOverall.cell "HIL" "QTD" = 5 ∧
    (∀ b, qtdOf snapXRecs b = 0) := by
  have h : create_enhanced_pivot_table hcRecs hcData MetricType.hc TableTitle.Overall =
      some hcGridOverall := (Option.some_get _).symm
  have hm := C4_qtd_column.1 hcRecs hcData MetricType.hc TableTitle.Overall
    hcGridOverall h (by decide)
  refine ⟨hm.2.1 "FY25 Q1" "FY25 Q2" (by decide) "HIL", by decide, ?_⟩
  exact (C4_qtd_column.2.2 snapX MetricType.hc snapXRecs (by decide)).2

/-- Claim C5, counterexample: a snapshot whose `by_business` map is missing
the catalog unit `TIME` makes extraction fail (`KeyError`, modelled as
`none`) instead of producing a flat record with value 0 — in both the
HC/FTE and the fulfillment extraction. -/
theorem C5_missing_business_counterexample :
    create_business_dataframe [snapNoTime] MetricType.hc = none ∧
    create_fulfillment_business_dataframe [fsnapNoTime] = none := by
  exact ⟨by decide, by decide⟩

/-- Claim C5, amended: a business unit absent from the `by_business` map
of a metric block makes the whole extraction fail (Python raises
`KeyError` on the direct subscript) — it is never defaulted to 0. -/
theorem C5_missing_business_amended :
    (∀ (data : List Snapshot) (mt : MetricType) (qd : Snapshot) (b : String)
       (blk : MetricBlock) (m : List (String × ℚ)),
      qd ∈ data → b ∈ businesses →
      dget qd.metrics (totalBillableKey mt) = some blk →
      blk.by_business = some m → dget m b = none →
      create_business_dataframe data mt = none) ∧
    (∀ (data : List Snapshot) (qd : Snapshot) (b : String)
       (blk : MetricBlock) (m : List (String × ℚ)),
      qd ∈ data → b ∈ businesses →
      dget qd.metrics "total_demands" = some blk →
      blk.by_business = some m → dget m b = none →
      create_fulfillment_business_dataframe data = none) := by
  constructor
  · intro data mt qd b blk m hqd hb h1 h2 h3
    have hrec : businessRecord qd (totalBillableKey mt) b = none := by
      unfold businessRecord
      rw [h1]
      simp only
      rw [h2]
      simp only
      rw [h3]
    have hinner : omap (businessRecord qd (totalBillableKey mt)) businesses = none :=
      omap_eq_none_of_mem _ _ b hb hrec
    have houter : omap (fun qd' =>
        omap (businessRecord qd' (totalBillableKey mt)) businesses) data = none :=
      omap_eq_none_of_mem _ _ qd hqd hinner
    unfold create_business_dataframe
    rw [houter]
    rfl
  · intro data qd b blk m hqd hb h1 h2 h3
    have hbv : byBusinessVal qd "total_demands" b = none := by
      unfold byBusinessVal
      rw [h1]
      simp only
      rw [h2]
      simp only
      rw [h3]
    have hrec : fulfillBusinessRecord qd b = none := by
      unfold fulfillBusinessRecord
      rw [hbv]
    have hinner : omap (fulfillBusinessRecord qd) businesses = none :=
      omap_eq_none_of_mem _ _ b hb hrec
    have houter : omap (fun qd' => omap (fulfillBusinessRecord qd') businesses) data = none :=
      omap_eq_none_of_mem _ _ qd hqd hinner
    unfold create_fulfillment_business_dataframe
    rw [houter]
    rfl

/-- Witness for the amended C5 at the concrete missing-TIME snapshot. -/
theorem C5_missing_business_amended_witness :
    create_business_dataframe [snapNoTime] MetricType.hc = none :=
  C5_missing_business_amended.1 [snapNoTime] MetricType.hc snapNoTime "TIME"
    { total := some 100, by_business := some bbNoTime } bbNoTime
    (by decide) (by decide) (by decide) (by decide) (by decide)

/-- Claim C7, counterexample: pivot ordering is NOT first-appearance order.
Feeding the two sample snapshots in reverse label order, the enriched
quarter columns of the enriched grid come out lexicographically sorted, not in
first-appearance order; and the business rows of the catalog-ordered
extraction likewise come out sorted (GROWTH MARKETS before HIL), not in
the catalog first-appearance order (HIL before GROWTH MARKETS). -/
theorem C7_ordering_counterexample :
    revGridOverall.bizRows ≠ specFirstAppearanceOrder (revRecs.map BRec.Business) ∧
    revGridOverall.qcols ≠ specFirstAppearanceOrder (revRecs.map BRec.Quarter) ∧
    revGridOverall.bizRows =
      ["BET NA", "GROWTH MARKETS", "HIL", "PLATINUM AC-CITI", "PLATINUM AC-JPMC", "TIME"] ∧
    specFirstAppearanceOrder (revRecs.map BRec.Business) =
      ["BET NA", "HIL", "GROWTH MARKETS", "PLATINUM AC-CITI", "PLATINUM AC-JPMC", "TIME"] ∧
    revGridOverall.qcols = ["FY25 Q1", "FY25 Q2"] ∧
    specFirstAppearanceOrder (revRecs.map BRec.Quarter) = ["FY25 Q2", "FY25 Q1"] := by
  refine ⟨by decide, by decide, by decide, by decide, by decide, by decide⟩

/-- Claim C7, amended: in every enriched pivot grid the business rows are
the distinct businesses sorted lexicographically ascending (pandas pivot
sorts labels) and the quarter columns are the distinct quarters sorted
lexicographically ascending — not first-appearance order; the three
summary rows are always appended last in the fixed order
[VRTU, KPO, VRTU Excl KPO], and QTD is always the rightmost column. -/
theorem C7_ordering_amended :
    ∀ (recs : List BRec) (data : List Snapshot) (mt : MetricType)
      (title : TableTitle) (g : EnhancedGrid),
      create_enhanced_pivot_table recs data mt title = some g →
      g.rowLabels = g.bizRows ++ ["VRTU", "KPO", "VRTU Excl KPO"] ∧
      g.cols = g.qcols ++ ["QTD"] ∧
      g.bizRows.Sorted (fun a b => strLt a b = true) ∧
      g.qcols.Sorted (fun a b => strLt a b = true) ∧
      (∀ b, b ∈ g.bizRows ↔ b ∈ recs.map BRec.Business) ∧
      (∀ q, q ∈ g.qcols ↔ q ∈ recs.map BRec.Quarter) := by
  intro recs data mt title g hg
  obtain ⟨-, kpo, excl, -, -, hqcols, hcols, hbiz, hrows, -, -, -, -⟩ :=
    enhanced_pivot_inv hg
  refine ⟨by rw [hrows, hbiz], by rw [hcols, hqcols], ?_, ?_, ?_, ?_⟩
  · rw [hbiz]
    exact sorted_sortedDedup _
  · rw [hqcols]
    exact sorted_sortedDedup _
  · intro b
    rw [hbiz]
    exact mem_sortedDedup b _
  · intro q
    rw [hqcols]
    exact mem_sortedDedup q _

/-- Witness for the amended C7 on the concrete reverse-order sample. -/
theorem C7_ordering_amended_witness :
    revGridOverall.cols = revGridOverall.qcols ++ ["QTD"] ∧
    revGridOverall.bizRows.Sorted (fun a b => strLt a b = true) ∧
    ("HIL" ∈ revGridOverall.bizRows ↔ "HIL" ∈ revRecs.map BRec.Business) := by
  have h : create_enhanced_pivot_table revRecs revData MetricType.hc TableTitle.Overall =
      some revGridOverall := (Option.some_get _).symm
  have hm := C7_ordering_amended revRecs revData MetricType.hc TableTitle.Overall
    revGridOverall h
  exact ⟨hm.2.1, hm.2.2.1, hm.2.2.2.2.1 "HIL"⟩

unseal Rat.add Rat.sub Rat.mul Rat.inv in
/-- Claim C8, counterexample: the location fulfillment extraction does NOT
read the `filled_by_business` sub-map.  In the sample, the onsite block
records 7 filled TIME demands, but the extracted onsite TIME record
reports 1 — the proportional split trunc(5 × (2 / 10)). -/
theorem C8_location_counterexample :
    dget fOnFilled1 "TIME" = some 7 ∧
    (((create_fulfillment_location_business_dataframe fData "onsite").getD []).find?
        (fun r => r.Business == "TIME" && r.Quarter == "FY25 Q1")).map
      (fun r => r.Filled) = some 1 ∧
    (1 : ℚ) ≠ 7 := by
  refine ⟨by decide, by decide, by decide⟩

/-- Claim C8, amended: location-scoped filled and open counts are a
proportional split of the overall per-business filled/open counts,
prorated by the location share of the total demand of that business and
truncated toward zero; the `filled_by_business` / `open_by_business`
sub-maps are never consulted (erasing them does not change the output). -/
theorem C8_location_proportional_amended :
    (∀ (data : List Snapshot) (location : String),
      create_fulfillment_location_business_dataframe (data.map scrubSubmaps) location =
        create_fulfillment_location_business_dataframe data location) ∧
    (∀ (qd : Snapshot) (lk b : String) (t bt bf bo : ℚ),
      byBusinessVal qd lk b = some t →
      byBusinessVal qd "total_demands" b = some bt →
      byBusinessVal qd "filled_demands" b = some bf →
      byBusinessVal qd "open_demands" b = some bo →
      bt > 0 →
      fulfillLocationRecord qd lk b = some
        { Quarter := quarterLabel qd, Business := b, Total := t,
          Filled := (pytrunc (bf * (t / bt)) : ℚ),
          Open := (pytrunc (bo * (t / bt)) : ℚ),
          Fulfillment_Rate := fulfillment_rate_of (pytrunc (bf * (t / bt)) : ℚ)
            (pytrunc (bo * (t / bt)) : ℚ) }) := by
  constructor
  · intro data location
    unfold create_fulfillment_location_business_dataframe
    rw [omap_map]
    have hcong : omap (fun qd =>
        omap (fulfillLocationRecord (scrubSubmaps qd) (demandLocationKey location))
          businesses) data =
      omap (fun qd =>
        omap (fulfillLocationRecord qd (demandLocationKey location)) businesses) data := by
      apply omap_congr
      intro qd _
      apply omap_congr
      intro b _
      exact fulfillLocationRecord_scrub qd _ b
    rw [hcong]
  · intro qd lk b t bt bf bo h1 h2 h3 h4 hbt
    unfold fulfillLocationRecord
    rw [h1, h2, h3, h4]
    simp only [if_pos hbt]

/-- Witness for the amended C8 at the concrete onsite TIME cell:
2 of the 10 total demands of the business are onsite, 5 are filled overall, so
the onsite filled count is trunc(5 × 2/10) = trunc(1). -/
theorem C8_location_proportional_amended_witness :
    create_fulfillment_location_business_dataframe (fData.map scrubSubmaps) "onsite" =
      create_fulfillment_location_business_dataframe fData "onsite" ∧
    fulfillLocationRecord fsnap1 "onsite_demands" "TIME" = some
      { Quarter := "FY25 Q1", Business := "TIME", Total := 2,
        Filled := (pytrunc ((5 : ℚ) * (2 / 10)) : ℚ),
        Open := (pytrunc ((5 : ℚ) * (2 / 10)) : ℚ),
        Fulfillment_Rate := fulfillment_rate_of (pytrunc ((5 : ℚ) * (2 / 10)) : ℚ)
          (pytrunc ((5 : ℚ) * (2 / 10)) : ℚ) } := by
  refine ⟨C8_location_proportional_amended.1 fData "onsite", ?_⟩
  exact C8_location_proportional_amended.2 fsnap1 "onsite_demands" "TIME" 2 10 5 5
    (by decide) (by decide) (by decide) (by decide) (by decide)

unseal Rat.add Rat.sub Rat.mul Rat.inv in
/-- Claim C9, counterexample: the KPO row of the onsite fulfillment pivot is NOT
0 in every column: on the sample data (with a `kpo_demands` block of
total 5 in FY25 Q1) the KPO row of the onsite grid reports 5 at FY25 Q1. -/
theorem C9_onsite_kpo_counterexample :
    (onsiteFulfillmentPivot fData FulfillCol.Total).map
      (fun g => dget g.kpoRow "FY25 Q1") = some (some 5) ∧
    (5 : ℚ) ≠ 0 := by
  refine ⟨by decide, by decide⟩

/-- Claim C9, amended: `create_fulfillment_pivot` applies one uniform KPO
policy to every location: the KPO row of the onsite grid coincides with
the KPO row of the overall grid built from the same snapshot sequence
(their quarter columns coincide too); per snapshot the KPO value is read
from the `kpo_demands` block when present and otherwise falls back to the
raw value of the TIME business column (with default 0); with
duplicate-free labels that value is exactly what the KPO row of the grid
reports. -/
theorem C9_onsite_kpo_amended :
    (∀ (data : List Snapshot) (col : FulfillCol) (gOn gAll : FulfillGrid),
      onsiteFulfillmentPivot data col = some gOn →
      overallFulfillmentPivot data col = some gAll →
      gOn.qcols = gAll.qcols ∧ gOn.kpoRow = gAll.kpoRow) ∧
    (∀ (qd : Snapshot) (blk : MetricBlock),
      dget qd.metrics "kpo_demands" = some blk →
      fulfillKpoVal qd FulfillCol.Total = blk.total ∧
      fulfillKpoVal qd FulfillCol.Filled = blk.filled ∧
      fulfillKpoVal qd FulfillCol.Opened = blk.open_) ∧
    (∀ (qd : Snapshot),
      dget qd.metrics "kpo_demands" = none →
      fulfillKpoVal qd FulfillCol.Total =
        (dget qd.metrics "total_demands").bind (fun blk =>
          blk.by_business.map (fun m => (dget m "TIME").getD 0))) ∧
    (∀ (df : List FRec) (col : FulfillCol) (ds : List Snapshot) (g : FulfillGrid)
       (qd : Snapshot) (v : ℚ),
      create_fulfillment_pivot df col ds = some g →
      (ds.map quarterLabel).Nodup → "QTD" ∉ ds.map quarterLabel →
      qd ∈ ds → quarterLabel qd ∈ g.cols →
      fulfillKpoVal qd col = some v →
      dget g.kpoRow (quarterLabel qd) = some v) := by
  refine ⟨?_, ?_, ?_, ?_⟩
  · intro data col gOn gAll hOn hAll
    unfold onsiteFulfillmentPivot at hOn
    unfold overallFulfillmentPivot at hAll
    cases hdfOn : create_fulfillment_location_business_dataframe data "onsite" with
    | none => rw [hdfOn] at hOn; cases hOn
    | some dfOn =>
      rw [hdfOn] at hOn
      cases hdfAll : create_fulfillment_business_dataframe data with
      | none => rw [hdfAll] at hAll; cases hAll
      | some dfAll =>
        rw [hdfAll] at hAll
        have hmemOn := df_quarters_mem
          (fun qd b => fulfillLocationRecord qd (demandLocationKey "onsite") b)
          FRec.Quarter (fun qd b r hr => fulfillLocationRecord_quarter hr) hdfOn
        have hmemAll := df_quarters_mem (fun qd b => fulfillBusinessRecord qd b)
          FRec.Quarter (fun qd b r hr => fulfillBusinessRecord_quarter hr) hdfAll
        have hcolseq : fpivotColLabels dfOn = fpivotColLabels dfAll := by
          unfold fpivotColLabels
          apply sortedDedup_congr
          intro x
          rw [hmemOn x, hmemAll x]
        obtain ⟨-, kpoOn, hkOn, hqOn, -, -, -, -, -, hkpoOn, -⟩ :=
          fulfillment_pivot_inv hOn
        obtain ⟨-, kpoAll, hkAll, hqAll, -, -, -, -, -, hkpoAll, -⟩ :=
          fulfillment_pivot_inv hAll
        rw [hcolseq] at hkOn
        rw [hkOn] at hkAll
        cases hkAll
        exact ⟨by rw [hqOn, hqAll, hcolseq], by rw [hkpoOn, hkpoAll]⟩
  · intro qd blk h
    unfold fulfillKpoVal
    rw [h]
    exact ⟨rfl, rfl, rfl⟩
  · intro qd h
    unfold fulfillKpoVal
    rw [h]
    dsimp only
    cases hdt : dget qd.metrics "total_demands" with
    | none => rfl
    | some blk =>
      show (match blk.by_business with
            | none => none
            | some m => some ((dget m "TIME").getD 0)) =
        Option.map (fun m => (dget m "TIME").getD 0) blk.by_business
      cases blk.by_business with
      | none => rfl
      | some m => rfl
  · intro df col ds g qd v hg hnd hQ hqd hcols hv
    obtain ⟨-, kpo, hk, -, hgcols, -, -, -, -, hkpo, -⟩ := fulfillment_pivot_inv hg
    rw [hgcols] at hcols
    obtain ⟨dict, qtd, hdict, hkpoeq⟩ := fulfillKpoRow_inv hk
    have hlbl : quarterLabel qd ≠ "QTD" := fun hh =>
      hQ (hh ▸ List.mem_map.mpr ⟨qd, hqd, rfl⟩)
    rw [hkpo, hkpoeq, dget_dset_ne _ _ _ _ hlbl]
    exact fulfillKpoQuartersAux_dget hnd hdict qd hqd hcols v hv

unseal Rat.add Rat.sub Rat.mul Rat.inv in
/-- Witness for the amended C9 on the sample: the onsite and overall
Total grids share the same KPO row, and its FY25 Q1 entry is the
`kpo_demands` total 5. -/
theorem C9_onsite_kpo_amended_witness :
    onsiteGridTotal.kpoRow = fulGridTotal.kpoRow ∧
    dget onsiteGridTotal.kpoRow "FY25 Q1" = some 5 := by
  have hOn : onsiteFulfillmentPivot fData FulfillCol.Total = some onsiteGridTotal :=
    (Option.some_get _).symm
  have hAll : overallFulfillmentPivot fData FulfillCol.Total = some fulGridTotal := by
    have : overallFulfillmentPivot fData FulfillCol.Total =
        create_fulfillment_pivot fRecs FulfillCol.Total fData := rfl
    rw [this]
    exact (Option.some_get _).symm
  refine ⟨(C9_onsite_kpo_amended.1 fData FulfillCol.Total onsiteGridTotal fulGridTotal
    hOn hAll).2, by decide⟩

end Dashboard
